import Mathlib

/-!
Verification development for the cartool repository's header-normalization
and schema-casting pipeline (src/cartool).  The pandas DataFrame is modelled
shallowly: a table is an ordered list of named columns, a column is an
ordered list of cells, and a cell is a missing marker (NaN / pd.NA), a
string, an integer scalar, or a float scalar (modelled as a rational).
Fallible pandas operations are modelled with Except / Option.
-/

namespace Cartool

/-- Model of one scalar cell of the spreadsheet grid: missing (NaN / pd.NA),
a Python string, a Python int, or a Python float (modelled as a rational). -/
inductive Cell where
  | na : Cell
  | str : String → Cell
  | intv : Int → Cell
  | floatv : Rat → Cell
deriving DecidableEq, Repr

/-- Fractional-digit production for the float renderer: emit decimal digits
of the remainder over the denominator, stopping when the remainder reaches
zero (so 1/2 renders "0.5"); the fuel caps non-terminating expansions,
which do not arise from the spreadsheet's decimal data. -/
def renderFloatAux (num : Int) (den : Nat) (fuel : Nat) (digits : String) : String :=
  match fuel with
  | 0 => digits
  | fuel + 1 =>
    if num == 0 then digits
    else
      let num10 := num * 10
      renderFloatAux (num10 % Int.ofNat den) den fuel (digits ++ toString (num10 / Int.ofNat den))

/-- Rendering of a float the way a Python f-string renders it: integral
floats render with a trailing ".0", and decimal-representable floats (the
fragment the pipeline's data uses) render as their finite decimal
expansion ("0.5" for 1/2, "2.5" for 5/2). -/
def renderFloat (q : Rat) : String :=
  if q.den == 1 then toString q.num ++ ".0"
  else
    let sign := if q.num < 0 then "-" else ""
    let n := q.num.natAbs
    let ip := n / q.den
    let rm := Int.ofNat (n % q.den)
    sign ++ toString ip ++ "." ++ renderFloatAux rm q.den 30 ""

/-- Python str() applied to a cell, as used by pandas .astype(str) and by
f-string interpolation of a cell value: NaN renders as "nan". -/
def Cell.render : Cell → String
  | Cell.na => "nan"
  | Cell.str s => s
  | Cell.intv n => toString n
  | Cell.floatv q => renderFloat q

/-- Pandas elementwise equality of a cell against another cell: missing
values compare unequal to everything (NaN == NaN is False), strings compare
by value, and numeric scalars compare by numeric value (Python 5 == 5.0). -/
def Cell.pdEq : Cell → Cell → Bool
  | Cell.str a, Cell.str b => a == b
  | Cell.intv a, Cell.intv b => a == b
  | Cell.floatv a, Cell.floatv b => a == b
  | Cell.intv a, Cell.floatv b => (a : Rat) == b
  | Cell.floatv a, Cell.intv b => a == (b : Rat)
  | _, _ => false

/-- Whether a cell is the missing marker. -/
def Cell.isNa : Cell → Bool
  | Cell.na => true
  | _ => false

/-- Whether a cell is a string cell. -/
def Cell.isStrCell : Cell → Bool
  | Cell.str _ => true
  | _ => false

/-! ### Python string primitives used by the pipeline -/

/-- Python str.strip() on the character list of a string: drop whitespace
from both ends. -/
def pyStripList (l : List Char) : List Char :=
  ((l.dropWhile Char.isWhitespace).reverse.dropWhile Char.isWhitespace).reverse

/-- Python str.strip(). -/
def pyStrip (s : String) : String :=
  ⟨pyStripList s.data⟩

/-- Replacement of every newline character by a single space, the effect of
df.replace with the one-character regex pattern on a string cell. -/
def replaceNewline (s : String) : String :=
  ⟨s.data.map (fun c => if c == '\n' then ' ' else c)⟩

/-- Whether the first list is a prefix of the second (by BEq on chars). -/
def startsWithL : List Char → List Char → Bool
  | [], _ => true
  | _ :: _, [] => false
  | a :: as, b :: bs => a == b && startsWithL as bs

/-- Whether the first list occurs contiguously inside the second. -/
def infixL (needle : List Char) : List Char → Bool
  | [] => startsWithL needle []
  | b :: bs => startsWithL needle (b :: bs) || infixL needle bs

/-- Substring containment test (Python operator in on strings). -/
def containsSub (needle hay : String) : Bool :=
  infixL needle.data hay.data

/-! ### clean_strings (src/cartool/handle_data/clean_perfusion_data.py, lines 271-287)

The grid is modelled row-major as a list of rows of cells; every statement
of the source is one cellwise pass over the grid. -/

/-- One raw grid: rows of cells. -/
def Grid := List (List Cell)

/-- Pass 1: strip each string cell (df.map with str.strip). -/
def stripCell : Cell → Cell
  | Cell.str s => Cell.str (pyStrip s)
  | c => c

/-- Pass 2: df.replace of newline by space with regex=True, acting inside
string cells. -/
def newlineCell : Cell → Cell
  | Cell.str s => Cell.str (replaceNewline s)
  | c => c

/-- Pass 3: df.map replacing any string cell containing the substring
"Media" by NaN. -/
def mediaCell : Cell → Cell
  | Cell.str s => if containsSub "Media" s then Cell.na else Cell.str s
  | c => c

/-- Passes 4-6: df.replace of a cell exactly equal to the given string by
NaN. -/
def replaceExactCell (v : String) : Cell → Cell
  | Cell.str s => if s == v then Cell.na else Cell.str s
  | c => c

/-- Embedding of clean_strings: the six grid-wide passes of the source, in
source order. -/
def clean_strings (g : Grid) : Grid :=
  let g1 : Grid := g.map (fun row => row.map stripCell)
  let g2 : Grid := g1.map (fun row => row.map newlineCell)
  let g3 : Grid := g2.map (fun row => row.map mediaCell)
  let g4 : Grid := g3.map (fun row => row.map (replaceExactCell "Not acquired"))
  let g5 : Grid := g4.map (fun row => row.map (replaceExactCell "-"))
  g5.map (fun row => row.map (replaceExactCell "not acq"))

/-- The cellwise composite that clean_strings applies to every cell. -/
def cleanCell (c : Cell) : Cell :=
  replaceExactCell "not acq"
    (replaceExactCell "-"
      (replaceExactCell "Not acquired"
        (mediaCell (newlineCell (stripCell c)))))

/-! ### Label maps and header renaming (src/cartool/handle_data/clean_perfusion_data.py) -/

/-- The time-independent label dictionary of clean_perfusion_data
(handle_data variant), as an ordered association list. -/
def time_independent_labels : List (String × String) :=
  [("Date", "Date"),
   ("Donor", "Donor"),
   ("Static run", "Static_Run"),
   ("ambr15 run", "AMBR15_Run"),
   ("Conditions", "Conditions"),
   ("Agitation_Strategy", "Agitation_Strategy"),
   ("System", "System"),
   ("Agitation", "Agitation"),
   ("Activation reagent", "Activation_Reagent"),
   ("Activation time", "Activation_Time"),
   ("Cells/Microbeads", "Cells_per_Microbeads"),
   ("DO - activation", "DO_Activation"),
   ("DO - expansion", "DO_Expansion"),
   ("Cytokine supplementation", "Cytokine_Supplementation"),
   ("Inoculum (M cell/mL)", "Inoculum")]

/-- The time-dependent label dictionary of clean_perfusion_data
(handle_data variant). -/
def time_dependent_labels : List (String × String) :=
  [("Viable cell density (cell/mL)", "VCD"),
   ("Viability (%)", "Viability"),
   ("Lactate Concentration", "Lac"),
   ("Glucose Concentration", "Glc"),
   ("CD25+ %", "CD25"),
   ("CD69+ %", "CD69"),
   ("PD-1+ %", "PD-1"),
   ("TIM-3+ %", "TIM-3"),
   ("LAG-3+ %", "LAG-3"),
   ("Naïve/Memory Stem T-cells %", "Naive_Memory"),
   ("Central Memory T-cells %", "Central_Memory"),
   ("Effector Memory T cells %", "Effector_Memory"),
   ("Effector T cells %", "Effector"),
   ("IFN-y+ (%)", "IFN-y"),
   ("TNF-a+ (%)", "TNF-a"),
   ("IFN-y+ TNF-a+​ (%)", "IFN-y_TNF-a"),
   ("CD4:CD8 ratio", "CD4_CD8_ratio")]

/-- Pandas df.rename(columns=m) applied to one column name: a pure mapping
lookup, names absent from the map pass through unchanged. -/
def applyLabelMap (m : List (String × String)) (s : String) : String :=
  match m.find? (fun p => p.1 == s) with
  | some p => p.2
  | none => s

/-- The header-resolution rename of set_headers (lines 161-162): the
time-independent rename followed by the time-dependent rename. -/
def renameHeader (s : String) : String :=
  applyLabelMap time_dependent_labels (applyLabelMap time_independent_labels s)

/-! ### Lemmas about substring containment -/

theorem startsWithL_iff (n : List Char) : ∀ l : List Char,
    startsWithL n l = true ↔ ∃ t, l = n ++ t := by
  induction n with
  | nil => intro l; simp [startsWithL]
  | cons a as ih =>
    intro l
    cases l with
    | nil =>
      simp [startsWithL]
    | cons b bs =>
      simp only [startsWithL, Bool.and_eq_true, beq_iff_eq, ih]
      constructor
      · rintro ⟨rfl, t, rfl⟩
        exact ⟨t, rfl⟩
      · rintro ⟨t, ht⟩
        rw [List.cons_append] at ht
        injection ht with h1 h2
        exact ⟨h1.symm, t, h2⟩

theorem infixL_iff (n : List Char) : ∀ l : List Char,
    infixL n l = true ↔ ∃ p t, l = p ++ n ++ t := by
  intro l
  induction l with
  | nil =>
    simp only [infixL, startsWithL_iff]
    constructor
    · rintro ⟨t, ht⟩
      exact ⟨[], t, by simpa using ht⟩
    · rintro ⟨p, t, hp⟩
      refine ⟨t, ?_⟩
      rcases List.append_eq_nil.mp hp.symm with ⟨h1, h2⟩
      rcases List.append_eq_nil.mp h1 with ⟨h3, h4⟩
      simp [h2, h4]
  | cons b bs ih =>
    simp only [infixL, Bool.or_eq_true, startsWithL_iff, ih]
    constructor
    · rintro (⟨t, ht⟩ | ⟨p, t, ht⟩)
      · exact ⟨[], t, by simpa using ht⟩
      · exact ⟨b :: p, t, by simp [ht]⟩
    · rintro ⟨p, t, hp⟩
      cases p with
      | nil =>
        left
        exact ⟨t, by simpa using hp⟩
      | cons x xs =>
        right
        rw [List.cons_append, List.cons_append] at hp
        injection hp with h1 h2
        exact ⟨xs, t, by simpa using h2⟩

theorem infixL_reverse (n l : List Char) :
    infixL n.reverse l.reverse = true ↔ infixL n l = true := by
  simp only [infixL_iff]
  constructor
  · rintro ⟨p, t, hp⟩
    refine ⟨t.reverse, p.reverse, ?_⟩
    have := congrArg List.reverse hp
    simpa [List.reverse_append, List.append_assoc] using this
  · rintro ⟨p, t, rfl⟩
    exact ⟨t.reverse, p.reverse, by simp [List.reverse_append, List.append_assoc]⟩

theorem infixL_dropWhile_of_head (c : Char) (m : List Char)
    (hc : Char.isWhitespace c = false) : ∀ l : List Char,
    infixL (c :: m) l = true →
    infixL (c :: m) (l.dropWhile Char.isWhitespace) = true := by
  intro l
  induction l with
  | nil => simp [infixL, startsWithL]
  | cons b bs ih =>
    intro h
    rw [List.dropWhile_cons]
    by_cases hb : Char.isWhitespace b
    · simp only [hb, if_true]
      apply ih
      simp only [infixL, Bool.or_eq_true] at h
      rcases h with h | h
      · exfalso
        simp only [startsWithL, Bool.and_eq_true, beq_iff_eq] at h
        rw [h.1] at hc
        rw [hc] at hb
        simp at hb
      · exact h
    · simp only [hb, if_false]
      exact h

theorem media_infix_strip (s : String) (h : containsSub "Media" s = true) :
    containsSub "Media" (pyStrip s) = true := by
  have hm : "Media".data = 'M' :: ['e', 'd', 'i', 'a'] := rfl
  have hrev : ('M' :: ['e', 'd', 'i', 'a']).reverse = 'a' :: ['i', 'd', 'e', 'M'] := rfl
  unfold containsSub pyStrip pyStripList at *
  rw [hm] at h ⊢
  have h1 := infixL_dropWhile_of_head 'M' ['e', 'd', 'i', 'a'] (by decide) s.data h
  have h2 : infixL ('a' :: ['i', 'd', 'e', 'M'])
      ((s.data.dropWhile Char.isWhitespace).reverse) = true := by
    rw [← hrev]
    exact (infixL_reverse _ _).mpr h1
  have h3 := infixL_dropWhile_of_head 'a' ['i', 'd', 'e', 'M'] (by decide) _ h2
  rw [← hrev] at h3
  have := (infixL_reverse ('M' :: ['e', 'd', 'i', 'a'])
      (((s.data.dropWhile Char.isWhitespace).reverse.dropWhile Char.isWhitespace).reverse)).mp
  apply this
  simpa using h3

theorem media_infix_newline (s : String) (h : containsSub "Media" s = true) :
    containsSub "Media" (replaceNewline s) = true := by
  unfold containsSub replaceNewline at *
  rw [infixL_iff] at h
  rcases h with ⟨p, t, hp⟩
  rw [infixL_iff]
  refine ⟨p.map (fun c => if c == '\n' then ' ' else c),
         t.map (fun c => if c == '\n' then ' ' else c), ?_⟩
  show s.data.map _ = _
  rw [hp]
  simp only [List.map_append]
  rfl

/-- Claim C7: the string sanitizer clean_strings acts cellwise on the grid as
the composite cleanCell; it leaves non-string cells unchanged, maps any
string cell containing the substring "Media" to the missing marker, maps the
sentinel cells "Not acquired", "-", "not acq" to the missing marker, maps
"RPMI Media + 10% FBS" to missing and "  Donor 12 " to "Donor 12", and on
any other string cell returns the trimmed, newline-replaced text.  It is a
total Lean function, so it never raises. -/
theorem claim7_clean_strings_spec :
    (∀ g : Grid, clean_strings g = g.map (fun row => row.map cleanCell)) ∧
    (∀ c : Cell, c.isStrCell = false → cleanCell c = c) ∧
    (∀ s : String, containsSub "Media" s = true → cleanCell (Cell.str s) = Cell.na) ∧
    cleanCell (Cell.str "RPMI Media + 10% FBS") = Cell.na ∧
    cleanCell (Cell.str "  Donor 12 ") = Cell.str "Donor 12" ∧
    cleanCell (Cell.str "Not acquired") = Cell.na ∧
    cleanCell (Cell.str "-") = Cell.na ∧
    cleanCell (Cell.str "not acq") = Cell.na ∧
    (∀ s : String,
      containsSub "Media" (replaceNewline (pyStrip s)) = false →
      replaceNewline (pyStrip s) ≠ "Not acquired" →
      replaceNewline (pyStrip s) ≠ "-" →
      replaceNewline (pyStrip s) ≠ "not acq" →
      cleanCell (Cell.str s) = Cell.str (replaceNewline (pyStrip s))) := by
  refine ⟨?_, ?_, ?_, by decide, by decide, by decide, by decide, by decide, ?_⟩
  · intro g
    unfold clean_strings
    simp only [List.map_map, Function.comp_def]
    rfl
  · intro c hc
    cases c with
    | na => rfl
    | str s => simp [Cell.isStrCell] at hc
    | intv n => rfl
    | floatv q => rfl
  · intro s hs
    have h2 := media_infix_newline _ (media_infix_strip _ hs)
    simp [cleanCell, stripCell, newlineCell, mediaCell, h2, replaceExactCell]
  · intro s h1 h2 h3 h4
    simp only [cleanCell, stripCell, newlineCell, mediaCell, replaceExactCell, h1,
      Bool.false_eq_true, if_false, beq_iff_eq]
    simp only [if_neg h2, if_neg h3, if_neg h4]

/-- Claim C7 witness: the Media clause and the passthrough clause of the
sanitizer theorem, instantiated at concrete cells. -/
theorem claim7_clean_strings_spec_witness :
    cleanCell (Cell.str "xMediay") = Cell.na ∧
    cleanCell (Cell.str " ab\ncd ") = Cell.str "ab cd" := by
  constructor
  · exact claim7_clean_strings_spec.2.2.1 "xMediay" (by decide)
  · have h := claim7_clean_strings_spec.2.2.2.2.2.2.2.2 " ab\ncd "
      (by decide) (by decide) (by decide) (by decide)
    simpa using h

/-! ### Claim C8: idempotence of header renaming -/

theorem applyLabelMap_of_find (m : List (String × String)) (s : String)
    (p : String × String) (h : m.find? (fun q => q.1 == s) = some p) :
    applyLabelMap m s = p.2 := by
  unfold applyLabelMap
  rw [h]

theorem applyLabelMap_of_none (m : List (String × String)) (s : String)
    (h : m.find? (fun q => q.1 == s) = none) :
    applyLabelMap m s = s := by
  unfold applyLabelMap
  rw [h]

theorem renameHeader_fixes_ti :
    ∀ p ∈ time_independent_labels,
      applyLabelMap time_independent_labels p.2 = p.2 ∧
      applyLabelMap time_dependent_labels p.2 = p.2 := by decide

theorem renameHeader_fixes_td :
    ∀ p ∈ time_dependent_labels,
      applyLabelMap time_independent_labels p.2 = p.2 ∧
      applyLabelMap time_dependent_labels p.2 = p.2 := by decide

/-- Claim C8: the header rename (time-independent map, then time-dependent
map) fixes every canonical identifier, and applying the rename twice equals
applying it once, for every column name. -/
theorem claim8_rename_idempotent :
    ((time_independent_labels.map Prod.snd ++
      time_dependent_labels.map Prod.snd).all
        (fun v => renameHeader v == v) = true) ∧
    ∀ s : String, renameHeader (renameHeader s) = renameHeader s := by
  constructor
  · decide
  · intro s
    cases hti : time_independent_labels.find? (fun p => p.1 == s) with
    | some p =>
      have hp := List.mem_of_find?_eq_some hti
      have hfix := renameHeader_fixes_ti p hp
      have eS : renameHeader s = p.2 := by
        rw [renameHeader, applyLabelMap_of_find _ _ _ hti, hfix.2]
      rw [eS, renameHeader, hfix.1, hfix.2]
    | none =>
      cases htd : time_dependent_labels.find? (fun q => q.1 == s) with
      | some q =>
        have hq := List.mem_of_find?_eq_some htd
        have hfix := renameHeader_fixes_td q hq
        have eS : renameHeader s = q.2 := by
          rw [renameHeader, applyLabelMap_of_none _ _ hti,
            applyLabelMap_of_find _ _ _ htd]
        rw [eS, renameHeader, hfix.1, hfix.2]
      | none =>
        have eS : renameHeader s = s := by
          rw [renameHeader, applyLabelMap_of_none _ _ hti,
            applyLabelMap_of_none _ _ htd]
        rw [eS, eS]

/-! ### A small backtracking regular-expression engine

Only the constructs used by the pipeline's patterns are modelled: greedy
bounded digit groups, greedy unbounded digit groups, greedy word groups
(all captured), whitespace gaps, the dash class, and (case-insensitive)
literals.  Matching uses Python semantics: greedy quantifiers backtrack
from the longest candidate downward, and search tries every start
position from the left.  Fuel makes the recursion structural; one unit
of fuel is consumed per token, so tokens-plus-one fuel always suffices. -/

/-- Python word character for the ASCII fragment used here. -/
def isWordChar (c : Char) : Bool := c.isAlphanum || c == '_'

/-- One regex token of the patterns used by the pipeline. -/
inductive Tok where
  | digitsRange (lo hi : Nat) : Tok
  | digitsPlus : Tok
  | wsStar : Tok
  | dash : Tok
  | litCI (s : String) : Tok
  | wordPlus : Tok
deriving Repr

/-- Consume a case-insensitive literal, returning the rest of the input. -/
def litMatchCI : List Char → List Char → Option (List Char)
  | [], l => some l
  | _ :: _, [] => none
  | a :: as, b :: bs => if a.toLower == b.toLower then litMatchCI as bs else none

/-- Candidate lengths for a greedy group: hi, hi-1, ..., lo. -/
def greedyLens (lo hi : Nat) : List Nat :=
  (List.range' lo (hi + 1 - lo)).reverse

/-- Token-list matcher with explicit fuel (structural recursion).  Returns
the list of captured groups of the first (greediest) match anchored at the
start of the input. -/
def matchToksF : Nat → List Tok → List Char → Option (List String)
  | 0, _, _ => none
  | _ + 1, [], _ => some []
  | fuel + 1, Tok.wsStar :: ts, l => matchToksF fuel ts (l.dropWhile Char.isWhitespace)
  | fuel + 1, Tok.dash :: ts, l =>
    match l with
    | c :: l' => if c == '-' || c == '–' then matchToksF fuel ts l' else none
    | [] => none
  | fuel + 1, Tok.litCI s :: ts, l =>
    match litMatchCI s.data l with
    | some l' => matchToksF fuel ts l'
    | none => none
  | fuel + 1, Tok.digitsRange lo hi :: ts, l =>
    let run := (l.takeWhile Char.isDigit).length
    (greedyLens lo (min hi run)).findSome? fun k =>
      if k ≤ run then
        (matchToksF fuel ts (l.drop k)).map (fun caps => String.mk (l.take k) :: caps)
      else none
  | fuel + 1, Tok.digitsPlus :: ts, l =>
    let run := (l.takeWhile Char.isDigit).length
    (greedyLens 1 run).findSome? fun k =>
      (matchToksF fuel ts (l.drop k)).map (fun caps => String.mk (l.take k) :: caps)
  | fuel + 1, Tok.wordPlus :: ts, l =>
    let run := (l.takeWhile isWordChar).length
    (greedyLens 1 run).findSome? fun k =>
      (matchToksF fuel ts (l.drop k)).map (fun caps => String.mk (l.take k) :: caps)

/-- Anchored match of a token list against the input. -/
def matchToks (toks : List Tok) (l : List Char) : Option (List String) :=
  matchToksF (toks.length + 1) toks l

/-- Python re.search: try to match at every start position, leftmost first. -/
def reSearch (toks : List Tok) : List Char → Option (List String)
  | [] => matchToks toks []
  | c :: rest =>
    match matchToks toks (c :: rest) with
    | some caps => some caps
    | none => reSearch toks rest

/-- The same-month pattern of extract_dates_str. -/
def sameMonthToks : List Tok :=
  [Tok.digitsRange 1 2, Tok.wsStar, Tok.dash, Tok.wsStar, Tok.digitsRange 1 2,
   Tok.wsStar, Tok.wordPlus, Tok.wsStar, Tok.digitsRange 4 4]

/-- The cross-month pattern of extract_dates_str. -/
def crossMonthToks : List Tok :=
  [Tok.digitsRange 1 2, Tok.wsStar, Tok.wordPlus, Tok.wsStar, Tok.dash, Tok.wsStar,
   Tok.digitsRange 1 2, Tok.wsStar, Tok.wordPlus, Tok.wsStar, Tok.digitsRange 4 4]

/-- The run-number pattern of handle_date_column (case-insensitive). -/
def runToks : List Tok := [Tok.litCI "RUN", Tok.wsStar, Tok.digitsPlus]

/-- The donor-number pattern of handle_date_column (case-insensitive). -/
def donorToks : List Tok := [Tok.litCI "Donor", Tok.wsStar, Tok.digitsPlus]

/-! ### Model of dateparser.parse on "day month year" inputs -/

/-- Lowercasing of a string, charwise. -/
def lowerStr (s : String) : String :=
  ⟨s.data.map Char.toLower⟩

/-- English month-name lookup (full names and common abbreviations),
case-insensitive: the fragment of dateparser's vocabulary that the
pipeline's date texts use. -/
def monthNum (m : String) : Option Nat :=
  match ([("january", 1), ("february", 2), ("march", 3), ("april", 4),
          ("may", 5), ("june", 6), ("july", 7), ("august", 8),
          ("september", 9), ("october", 10), ("november", 11), ("december", 12),
          ("jan", 1), ("feb", 2), ("mar", 3), ("apr", 4), ("jun", 6),
          ("jul", 7), ("aug", 8), ("sep", 9), ("sept", 9), ("oct", 10),
          ("nov", 11), ("dec", 12)] :
         List (String × Nat)).find? (fun p => p.1 == lowerStr m) with
  | some p => some p.2
  | none => none

/-- Numeric value of a nonempty all-digit string. -/
def digitsToNat (s : String) : Option Nat :=
  if s.data.all Char.isDigit && !s.data.isEmpty then
    some (s.data.foldl (fun a c => a * 10 + (c.toNat - 48)) 0)
  else none

/-- Gregorian leap-year rule. -/
def isLeap (y : Nat) : Bool :=
  (y % 4 == 0 && y % 100 != 0) || y % 400 == 0

/-- Days in a month of a year. -/
def daysInMonth (m y : Nat) : Nat :=
  if m == 2 then (if isLeap y then 29 else 28)
  else if m == 4 || m == 6 || m == 9 || m == 11 then 30
  else 31

/-- A parsed calendar date. -/
structure PDate where
  year : Nat
  month : Nat
  day : Nat
deriving DecidableEq, Repr

/-- Model of dateparser.parse on the constructed "{day} {month} {year}"
strings: the month must be a recognized English month name and the day must
exist in that month, otherwise parsing yields None. -/
def parseDMY (d m y : String) : Option PDate :=
  match digitsToNat d, monthNum m, digitsToNat y with
  | some dd, some mm, some yy =>
    if 1 ≤ dd && dd ≤ daysInMonth mm yy then some ⟨yy, mm, dd⟩ else none
  | _, _, _ => none

/-- Zero-padded two-digit rendering (strftime %m / %d). -/
def pad2 (n : Nat) : String :=
  if n < 10 then "0" ++ toString n else toString n

/-- Zero-padded four-digit rendering (strftime %Y). -/
def pad4 (n : Nat) : String :=
  if n < 10 then "000" ++ toString n
  else if n < 100 then "00" ++ toString n
  else if n < 1000 then "0" ++ toString n
  else toString n

/-- ISO rendering used by strftime("%Y-%m-%d"). -/
def fmtDate (d : PDate) : String :=
  pad4 d.year ++ "-" ++ pad2 d.month ++ "-" ++ pad2 d.day

/-- Date-range string built from a successful same-month match. -/
def sameMonthResult (caps : List String) : Option String :=
  match caps with
  | [d1, d2, mon, yr] =>
    match parseDMY d1 mon yr, parseDMY d2 mon yr with
    | some s, some e => some (fmtDate s ++ " to " ++ fmtDate e)
    | _, _ => none
  | _ => none

/-- Date-range string built from a successful cross-month match. -/
def crossMonthResult (caps : List String) : Option String :=
  match caps with
  | [d1, m1, d2, m2, yr] =>
    match parseDMY d1 m1 yr, parseDMY d2 m2 yr with
    | some s, some e => some (fmtDate s ++ " to " ++ fmtDate e)
    | _, _ => none
  | _ => none

/-- Embedding of extract_dates_str
(src/cartool/handle_data/clean_perfusion_data.py, lines 219-239): the
same-month grammar is searched first; only when it finds no match at all is
the cross-month grammar searched; when neither matches, or when the matched
fragment fails date parsing, the result is missing (None), never an error. -/
def extract_dates_str (text : String) : Option String :=
  match reSearch sameMonthToks text.data with
  | some caps => sameMonthResult caps
  | none =>
    match reSearch crossMonthToks text.data with
    | some caps => crossMonthResult caps
    | none => none

/-- Claim C4: date-range extraction maps "3-5 January 2024" to
"2024-01-03 to 2024-01-05", maps "28 January - 2 February 2024" to
"2024-01-28 to 2024-02-02", maps unrecognizable input "TBD" to the missing
value (no error: the function is total with Option result), and tries the
same-month grammar before the cross-month grammar (whenever the same-month
search succeeds, its captures alone determine the result). -/
theorem claim4_extract_dates :
    extract_dates_str "3-5 January 2024" = some "2024-01-03 to 2024-01-05" ∧
    extract_dates_str "28 January - 2 February 2024" = some "2024-01-28 to 2024-02-02" ∧
    extract_dates_str "TBD" = none ∧
    (∀ (t : String) (caps : List String),
      reSearch sameMonthToks t.data = some caps →
      extract_dates_str t = sameMonthResult caps) := by
  refine ⟨by decide, by decide, by decide, ?_⟩
  intro t caps h
  unfold extract_dates_str
  rw [h]

/-- Claim C4 witness: the grammar-ordering clause applied at a concrete
input whose same-month search succeeds. -/
theorem claim4_extract_dates_witness :
    extract_dates_str "3-5 January 2024" = sameMonthResult ["3", "5", "January", "2024"] :=
  claim4_extract_dates.2.2.2 "3-5 January 2024" ["3", "5", "January", "2024"] (by decide)

/-! ### Table model

A DataFrame is modelled as an ordered list of named columns; rows are
positional, so the pandas integer index is implicit and reset_index
(drop=True) is the identity of the model. -/

/-- A DataFrame: ordered named columns of cells. -/
structure Table where
  cols : List (String × List Cell)
deriving DecidableEq, Repr

/-- The column names in order. -/
def Table.names (t : Table) : List String := t.cols.map Prod.fst

/-- Number of rows, read from the first column (all columns of a DataFrame
have equal length, captured by Table.Uniform). -/
def Table.nrows (t : Table) : Nat :=
  match t.cols with
  | [] => 0
  | c :: _ => c.2.length

/-- Wellformedness: every column has the common row count. -/
def Table.Uniform (t : Table) : Prop :=
  ∀ c ∈ t.cols, c.2.length = t.nrows

/-- Cells of the first column named n, if any (pandas column lookup under
unique column names). -/
def Table.getCol? (t : Table) (n : String) : Option (List Cell) :=
  (t.cols.find? (fun c => c.1 == n)).map Prod.snd

/-! ### merge_time_points_and_labels, positional variant
(src/cartool/handle_data/clean_perfusion_data.py, lines 167-200)

The source renames columns through the time-dependent map, collects every
column position whose (renamed) name is one of the map's values, rewrites
the name at each such position to name_D-v where v is the f-string
rendering of the cell in the first data row at that position, then drops
the first row and resets the index.  df.iloc[0, pos] and
df.drop(index=df.index[0]) raise on an empty frame, hence the row-count
guard. -/

def merge_time_points_and_labels (tdl : List (String × String)) (t : Table) :
    Except String Table :=
  let renamed : List (String × List Cell) :=
    t.cols.map (fun c => (applyLabelMap tdl c.1, c.2))
  let targets : List String := tdl.map Prod.snd
  if (Table.mk renamed).nrows = 0 then
    Except.error "single positional indexer is out-of-bounds"
  else
    Except.ok ⟨renamed.map (fun c =>
      (if targets.contains c.1 then c.1 ++ "_D-" ++ (c.2.headD Cell.na).render
       else c.1,
       c.2.tail))⟩

/-! ### merge_time_points_and_labels, label-selection variant
(src/cartool/load_and_clean_bioprocess_data.py, lines 92-118)

This sibling selects the subset df[list(labels.values())] (KeyError when a
canonical label is absent), converts each timepoint cell with Python
int(...) — which raises on non-numeric text — and renames through
dict(zip(labels, new_columns)), where later duplicate keys override
earlier ones. -/

/-- The time-dependent label dictionary of load_and_clean_bioprocess_data
(it lacks the "Glucose Concentration" entry of the handle_data variant). -/
def time_dependent_labels_b : List (String × String) :=
  [("Viable cell density (cell/mL)", "VCD"),
   ("Viability (%)", "Viability"),
   ("Lactate Concentration", "Lac"),
   ("CD25+ %", "CD25"),
   ("CD69+ %", "CD69"),
   ("PD-1+ %", "PD-1"),
   ("TIM-3+ %", "TIM-3"),
   ("LAG-3+ %", "LAG-3"),
   ("Naïve/Memory Stem T-cells %", "Naive_Memory"),
   ("Central Memory T-cells %", "Central_Memory"),
   ("Effector Memory T cells %", "Effector_Memory"),
   ("Effector T cells %", "Effector"),
   ("IFN-y+ (%)", "IFN-y"),
   ("TNF-a+ (%)", "TNF-a"),
   ("IFN-y+ TNF-a+​ (%)", "IFN-y_TNF-a"),
   ("CD4:CD8 ratio", "CD4_CD8_ratio")]

/-- Value of a nonempty all-digit character list. -/
def digitsVal (l : List Char) : Option Nat :=
  if l.all Char.isDigit && !l.isEmpty then
    some (l.foldl (fun a c => a * 10 + (c.toNat - 48)) 0)
  else none

/-- Python int(...) applied to a string: strip, optional sign, digits. -/
def pyIntParse (l : List Char) : Option Int :=
  match l with
  | '+' :: rest => (digitsVal rest).map Int.ofNat
  | '-' :: rest => (digitsVal rest).map (fun n => -(Int.ofNat n))
  | _ => (digitsVal l).map Int.ofNat

/-- Python int(...) applied to a cell value: ints pass through, floats
truncate toward zero (Int.tdiv is T-division, so -5.5 becomes -5 as in
Python), NaN and non-numeric strings raise. -/
def pyIntOfCell : Cell → Except String Int
  | Cell.intv n => Except.ok n
  | Cell.floatv q => Except.ok (Int.tdiv q.num (q.den : Int))
  | Cell.na => Except.error "cannot convert float NaN to integer"
  | Cell.str s =>
    match pyIntParse (pyStripList s.data) with
    | some n => Except.ok n
    | none => Except.error ("invalid literal for int() with base 10: \x27" ++ s ++ "\x27")

/-- Column selection df[labels]: for each label in order, all columns with
that name (KeyError when a label has none). -/
def selectCols (t : Table) : List String → Except String (List (String × List Cell))
  | [] => Except.ok []
  | v :: vs =>
    let ms := t.cols.filter (fun c => c.1 == v)
    if ms.isEmpty then Except.error ("KeyError: " ++ v)
    else do
      let rest ← selectCols t vs
      Except.ok (ms ++ rest)

def merge_time_points_and_labels_b (tdl : List (String × String)) (t : Table) :
    Except String Table := do
  let renamed : Table := ⟨t.cols.map (fun c => (applyLabelMap tdl c.1, c.2))⟩
  let subset ← selectCols renamed (tdl.map Prod.snd)
  let tps ← subset.mapM (fun c =>
    match c.2.head? with
    | some v => Except.ok v
    | none => Except.error "single positional indexer is out-of-bounds")
  let mapping ← (subset.zip tps).mapM (fun p => do
    let n ← pyIntOfCell p.2
    Except.ok (p.1.1, p.1.1 ++ "_D-" ++ toString n))
  if renamed.nrows = 0 then Except.error "index out of bounds"
  else
    Except.ok ⟨renamed.cols.map (fun c =>
      (match (mapping.reverse.find? (fun q => q.1 == c.1)).map Prod.snd with
       | some nn => nn
       | none => c.1,
       c.2.tail))⟩

/-- Claim C3 (code behavior at the failing input): in the handle_data
variant of the timepoint merger, a non-numeric timepoint cell does NOT
raise — the value is interpolated verbatim into the composite column name
("VCD_D-x") and the merge returns normally; the load_and_clean variant of
the same operation raises (Python int("x")) on the analogous input. -/
theorem claim3_timepoint_nonnumeric :
    (merge_time_points_and_labels time_dependent_labels
      ⟨[("Viable cell density (cell/mL)", [Cell.str "x", Cell.str "1"])]⟩ =
      Except.ok ⟨[("VCD_D-x", [Cell.str "1"])]⟩) ∧
    (merge_time_points_and_labels_b time_dependent_labels_b
      ⟨time_dependent_labels_b.map (fun p => (p.1, [Cell.str "x", Cell.str "1"]))⟩ =
      Except.error "invalid literal for int() with base 10: \x27x\x27") := by
  constructor
  · rfl
  · rfl

theorem stringAppendLeftCancel (a b c : String) (h : a ++ b = a ++ c) : b = c := by
  have hd := congrArg String.data h
  simp only [String.data_append] at hd
  have h2 := List.append_cancel_left hd
  cases b
  cases c
  exact congrArg String.mk h2

/-- Claim C5 counterexample: two columns with the same canonical name whose
row-0 cells differ (the Python int 5 versus the text "5") receive the SAME
composite name "VCD_D-5", because the f-string renders both alike — so
differing row-0 values do not guarantee pairwise-distinct composite
names. -/
theorem claim5_merge_counterexample :
    merge_time_points_and_labels time_dependent_labels
      ⟨[("Viable cell density (cell/mL)", [Cell.intv 5, Cell.str "1"]),
        ("Viable cell density (cell/mL)", [Cell.str "5", Cell.str "2"])]⟩ =
      Except.ok ⟨[("VCD_D-5", [Cell.str "1"]), ("VCD_D-5", [Cell.str "2"])]⟩ ∧
    Cell.intv 5 ≠ Cell.str "5" := by
  exact ⟨rfl, by decide⟩

/-- Claim C5 (amended): in the positional timepoint merger, every targeted
column position is renamed independently to name_D-v with v the f-string
rendering of the row-0 cell at that position, non-targeted positions keep
their (renamed) name, every column loses its first cell (the row used for
the timepoints is removed; rows are positional so indices stay a contiguous
zero-based sequence), and two targeted positions with the same canonical
name receive distinct composite names whenever the renderings of their
row-0 cells differ. -/
theorem claim5_merge_amended :
    ∀ (tdl : List (String × String)) (t t' : Table),
    merge_time_points_and_labels tdl t = Except.ok t' →
    t'.cols.length = t.cols.length ∧
    (∀ (p : Nat) (hp : p < t.cols.length) (hp' : p < t'.cols.length),
      t'.cols[p] =
        (if (tdl.map Prod.snd).contains (applyLabelMap tdl (t.cols[p]).1)
         then applyLabelMap tdl (t.cols[p]).1 ++ "_D-" ++
              ((t.cols[p]).2.headD Cell.na).render
         else applyLabelMap tdl (t.cols[p]).1,
         (t.cols[p]).2.tail)) ∧
    (∀ (p q : Nat) (hp : p < t.cols.length) (hq : q < t.cols.length)
       (hp' : p < t'.cols.length) (hq' : q < t'.cols.length),
      (tdl.map Prod.snd).contains (applyLabelMap tdl (t.cols[p]).1) = true →
      (tdl.map Prod.snd).contains (applyLabelMap tdl (t.cols[q]).1) = true →
      applyLabelMap tdl (t.cols[p]).1 = applyLabelMap tdl (t.cols[q]).1 →
      ((t.cols[p]).2.headD Cell.na).render ≠ ((t.cols[q]).2.headD Cell.na).render →
      (t'.cols[p]).1 ≠ (t'.cols[q]).1) := by
  intro tdl t t' h
  unfold merge_time_points_and_labels at h
  by_cases h0 :
      (Table.mk (t.cols.map (fun c => (applyLabelMap tdl c.1, c.2)))).nrows = 0
  · rw [if_pos h0] at h
    exact absurd h (by simp)
  · rw [if_neg h0] at h
    have ht' : t' = ⟨(t.cols.map (fun c => (applyLabelMap tdl c.1, c.2))).map
        (fun c =>
          (if (tdl.map Prod.snd).contains c.1 then c.1 ++ "_D-" ++ (c.2.headD Cell.na).render
           else c.1,
           c.2.tail))⟩ := by
      cases h
      rfl
    subst ht'
    refine ⟨by simp, ?_, ?_⟩
    · intro p hp hp'
      simp [List.getElem_map]
    · intro p q hp hq hp' hq' htp htq hbase hrend
      simp only [List.getElem_map, htp, htq, if_true]
      intro hcontra
      rw [hbase] at hcontra
      rw [String.append_assoc, String.append_assoc] at hcontra
      have h1 := stringAppendLeftCancel _ _ _ hcontra
      have h2 := stringAppendLeftCancel _ _ _ h1
      exact hrend h2

/-- Claim C5 witness: the amended merge theorem applied to a concrete
two-column table with duplicate canonical names and distinct textual
timepoints "0" and "3". -/
theorem claim5_merge_amended_witness :
    (Table.mk [("VCD_D-0", [Cell.str "1"]), ("VCD_D-3", [Cell.str "2"])]).cols.length =
      (Table.mk [("Viable cell density (cell/mL)", [Cell.str "0", Cell.str "1"]),
                 ("Viable cell density (cell/mL)", [Cell.str "3", Cell.str "2"])]).cols.length ∧
    (Table.mk [("VCD_D-0", [Cell.str "1"]), ("VCD_D-3", [Cell.str "2"])]).cols[0].1 ≠
    (Table.mk [("VCD_D-0", [Cell.str "1"]), ("VCD_D-3", [Cell.str "2"])]).cols[1].1 := by
  have h := claim5_merge_amended time_dependent_labels
    ⟨[("Viable cell density (cell/mL)", [Cell.str "0", Cell.str "1"]),
      ("Viable cell density (cell/mL)", [Cell.str "3", Cell.str "2"])]⟩
    ⟨[("VCD_D-0", [Cell.str "1"]), ("VCD_D-3", [Cell.str "2"])]⟩
    (by rfl)
  exact ⟨h.1, h.2.2 0 1 (by decide) (by decide) (by decide) (by decide)
    (by decide) (by decide) (by decide) (by decide)⟩

/-! ### Schema casting
(src/cartool/handle_data/validate_and_transform_data.py, lines 42-79)

One schema entry declares a dtype string and a time_dependent flag.  The
per-type rule of the source is: int-like dtype (the text "int" occurs in
dtype.lower()): pd.to_numeric(errors="raise"), fillna(0), astype; float-like
dtype: pd.to_numeric(errors="raise"), astype; otherwise a direct astype.
Numeric string parsing is modelled for plain decimal literals, which is the
fragment the pipeline's data uses; floats are rationals. -/

/-- One schema entry's properties. -/
structure SchemaProps where
  dtype : String
  time_dependent : Bool
deriving DecidableEq, Repr

/-- Pandas to_numeric string parsing: optional sign, digits, optional
fractional part. -/
def parsePandasNum (s : String) : Option Cell :=
  let core : List Char → Option Cell := fun l =>
    match l.splitOn '.' with
    | [d] => (digitsVal d).map (fun n => Cell.intv (Int.ofNat n))
    | [d, f] =>
      if (d ++ f).all Char.isDigit && !(d ++ f).isEmpty then
        some (Cell.floatv ((digitsVal (d ++ f)).getD 0 / ((10 : Rat) ^ f.length)))
      else none
    | _ => none
  match pyStripList s.data with
  | '+' :: rest => core rest
  | '-' :: rest =>
    (core rest).map (fun c =>
      match c with
      | Cell.intv n => Cell.intv (-n)
      | Cell.floatv q => Cell.floatv (-q)
      | c => c)
  | l => core l

/-- pd.to_numeric(errors="raise") on one cell. -/
def toNumericCell : Cell → Except String Cell
  | Cell.na => Except.ok Cell.na
  | Cell.intv n => Except.ok (Cell.intv n)
  | Cell.floatv q => Except.ok (Cell.floatv q)
  | Cell.str s =>
    match parsePandasNum s with
    | some c => Except.ok c
    | none => Except.error ("Unable to parse string \x22" ++ s ++ "\x22")

/-- fillna(0) on one cell. -/
def fillNaZeroCell : Cell → Cell
  | Cell.na => Cell.intv 0
  | c => c

/-- astype to an int dtype on one numeric cell (floats truncate toward
zero via T-division, matching numpy; NaN cannot be converted). -/
def astypeIntCell : Cell → Except String Cell
  | Cell.intv n => Except.ok (Cell.intv n)
  | Cell.floatv q => Except.ok (Cell.intv (Int.tdiv q.num (q.den : Int)))
  | Cell.na => Except.error "Cannot convert non-finite values (NA or inf) to integer"
  | Cell.str s => Except.error ("could not convert string to int: \x27" ++ s ++ "\x27")

/-- astype to a float dtype on one numeric cell (missing stays missing). -/
def astypeFloatCell : Cell → Except String Cell
  | Cell.intv n => Except.ok (Cell.floatv (n : Rat))
  | Cell.floatv q => Except.ok (Cell.floatv q)
  | Cell.na => Except.ok Cell.na
  | Cell.str s => Except.error ("could not convert string to float: \x27" ++ s ++ "\x27")

/-- Direct astype for non-numeric dtypes: object is the identity, string
dtypes render non-missing cells, anything else is an unsupported dtype
error (astype raises TypeError). -/
def astypeOtherCol (dtype : String) (col : List Cell) : Except String (List Cell) :=
  if dtype == "object" then Except.ok col
  else if dtype == "string" || dtype == "str" then
    Except.ok (col.map (fun c =>
      match c with
      | Cell.na => Cell.na
      | c => Cell.str c.render))
  else Except.error ("data type \x27" ++ dtype ++ "\x27 not understood")

/-- The per-type casting rule applied to one column (the shared body of
both branches of the source). -/
def castColByType (dtype : String) (col : List Cell) : Except String (List Cell) :=
  if containsSub "int" (lowerStr dtype) then do
    let c1 ← col.mapM toNumericCell
    (c1.map fillNaZeroCell).mapM astypeIntCell
  else if containsSub "float" (lowerStr dtype) then do
    let c1 ← col.mapM toNumericCell
    c1.mapM astypeFloatCell
  else astypeOtherCol dtype col

/-- In-place column assignment df[n] = cells: replace the first column
named n, appending a new column when none exists. -/
def setColList : List (String × List Cell) → String → List Cell → List (String × List Cell)
  | [], n, cells => [(n, cells)]
  | c :: rest, n, cells =>
    if c.1 == n then (n, cells) :: rest else c :: setColList rest n cells

/-- Table-level column assignment. -/
def Table.setCol (t : Table) (n : String) (cells : List Cell) : Table :=
  ⟨setColList t.cols n cells⟩

/-- Whether a column name matches the pattern base_D-<digits> used for
time-dependent column families (re pattern with re.escape(base)). -/
def tdPatternMatch (base name : String) : Bool :=
  let pre := (base ++ "_D-").data
  startsWithL pre name.data &&
    (!(name.data.drop pre.length).isEmpty &&
     (name.data.drop pre.length).all Char.isDigit)

/-- Loop body of cast_time_dependent_variable: walk the column names in
order, casting each matching column in place; the first failure stops the
loop and reports the wrapped error, leaving the already-cast columns in
the table. -/
def castTDAux (base dtype : String) : List String → Table → Table × Option String
  | [], t => (t, none)
  | n :: ns, t =>
    if tdPatternMatch base n then
      match t.getCol? n with
      | some col =>
        match castColByType dtype col with
        | Except.ok newCol => castTDAux base dtype ns (t.setCol n newCol)
        | Except.error e =>
          (t, some ("Failed to convert time-dependent column \x27" ++ n ++ "\x27 to "
                ++ dtype ++ ": " ++ e))
      | none => castTDAux base dtype ns t
    else castTDAux base dtype ns t

/-- Embedding of cast_time_dependent_variable (lines 63-79). -/
def cast_time_dependent_variable (t : Table) (base dtype : String) : Table × Option String :=
  castTDAux base dtype t.names t

/-- Processing of one schema entry inside cast_df_to_schema_types: the
try/except body for one (column, properties) pair, wrapping any failure in
the "Failed to convert column ... " ValueError of the source. -/
def castEntry (t : Table) (ent : String × SchemaProps) : Table × Option String :=
  let wrap : String → String := fun cause =>
    "Failed to convert column \x27" ++ ent.1 ++ "\x27 to " ++ ent.2.dtype ++ ": " ++ cause
  if ent.2.time_dependent then
    match cast_time_dependent_variable t ent.1 ent.2.dtype with
    | (t', none) => (t', none)
    | (t', some e) => (t', some (wrap e))
  else
    match t.getCol? ent.1 with
    | some cells =>
      match castColByType ent.2.dtype cells with
      | Except.ok newCol => (t.setCol ent.1 newCol, none)
      | Except.error e => (t, some (wrap e))
    | none => (t, some (wrap ("\x27" ++ ent.1 ++ "\x27")))

/-- Embedding of cast_df_to_schema_types (lines 42-60): iterate schema
entries in order, mutating the table in place; the first failing entry
aborts the loop, and the partially-cast table is what the caller sees. -/
def cast_df_to_schema_types : Table → List (String × SchemaProps) → Table × Option String
  | t, [] => (t, none)
  | t, ent :: rest =>
    match castEntry t ent with
    | (t', none) => cast_df_to_schema_types t' rest
    | (t', some e) => (t', some e)

/-! ### Lemmas about column assignment and lookup -/

theorem getColList_setColList_same (l : List (String × List Cell)) (n : String)
    (cells : List Cell) :
    (setColList l n cells).find? (fun c => c.1 == n) = some (n, cells) := by
  induction l with
  | nil => simp [setColList, List.find?]
  | cons c rest ih =>
    by_cases h : c.1 = n
    · simp [setColList, h, List.find?]
    · simp only [setColList, beq_iff_eq, h, if_false]
      rw [List.find?_cons_of_neg _ (by simpa using h)]
      exact ih

theorem getCol?_setCol_same (t : Table) (n : String) (cells : List Cell) :
    (t.setCol n cells).getCol? n = some cells := by
  unfold Table.setCol Table.getCol?
  rw [getColList_setColList_same]
  rfl

theorem find?_setColList_other (n : String) (cells : List Cell) (m : String)
    (h : m ≠ n) : ∀ l : List (String × List Cell),
    (setColList l n cells).find? (fun c => c.1 == m) =
      l.find? (fun c => c.1 == m) := by
  intro l
  induction l with
  | nil =>
    simp only [setColList]
    rw [List.find?_cons_of_neg _ (by simpa using fun hn => h hn.symm)]
  | cons c rest ih =>
    by_cases hc : c.1 = n
    · simp only [setColList, beq_iff_eq, hc, if_true]
      rw [List.find?_cons_of_neg _ (by simpa using fun hn => h hn.symm)]
      rw [List.find?_cons_of_neg _ (by simpa [hc] using fun hn => h hn.symm)]
    · simp only [setColList, beq_iff_eq, hc, if_false]
      by_cases hm : c.1 = m
      · rw [List.find?_cons_of_pos _ (by simpa using hm),
          List.find?_cons_of_pos _ (by simpa using hm)]
      · rw [List.find?_cons_of_neg _ (by simpa using hm),
          List.find?_cons_of_neg _ (by simpa using hm)]
        exact ih

theorem getCol?_setCol_other (t : Table) (n : String) (cells : List Cell)
    (m : String) (h : m ≠ n) :
    (t.setCol n cells).getCol? m = t.getCol? m := by
  unfold Table.setCol Table.getCol?
  rw [show (Table.mk (setColList t.cols n cells)).cols = setColList t.cols n cells from rfl,
    find?_setColList_other n cells m h]

theorem names_setColList_of_mem (n : String) (cells : List Cell) :
    ∀ l : List (String × List Cell), n ∈ l.map Prod.fst →
    (setColList l n cells).map Prod.fst = l.map Prod.fst := by
  intro l
  induction l with
  | nil => intro h; simp at h
  | cons c rest ih =>
    intro h
    by_cases hc : c.1 = n
    · simp [setColList, hc]
    · simp only [setColList, beq_iff_eq, hc, if_false, List.map_cons]
      congr 1
      apply ih
      simp only [List.map_cons, List.mem_cons] at h
      rcases h with h | h
      · exact absurd h.symm hc
      · exact h

theorem names_setCol_of_mem (t : Table) (n : String) (cells : List Cell)
    (h : n ∈ t.names) : (t.setCol n cells).names = t.names := by
  unfold Table.setCol Table.names at *
  exact names_setColList_of_mem n cells t.cols h

theorem mem_names_of_getCol? (t : Table) (n : String) (col : List Cell)
    (h : t.getCol? n = some col) : n ∈ t.names := by
  unfold Table.getCol? at h
  cases hf : t.cols.find? (fun c => c.1 == n) with
  | none => rw [hf] at h; simp at h
  | some c =>
    have hp := List.find?_some hf
    have hm := List.mem_of_find?_eq_some hf
    have : c.1 = n := by simpa using hp
    unfold Table.names
    rw [← this]
    exact List.mem_map_of_mem Prod.fst hm

theorem getCol?_of_mem_names (t : Table) (n : String) (h : n ∈ t.names) :
    ∃ col, t.getCol? n = some col := by
  unfold Table.names at h
  rcases List.mem_map.mp h with ⟨c, hc, hfst⟩
  have : (t.cols.find? (fun c => c.1 == n)).isSome := by
    rw [List.find?_isSome]
    exact ⟨c, hc, by simpa using hfst⟩
  cases hf : t.cols.find? (fun c => c.1 == n) with
  | none => rw [hf] at this; simp at this
  | some c' => exact ⟨c'.2, by unfold Table.getCol?; rw [hf]; rfl⟩

/-! ### Behavior of the time-dependent cast loop -/

theorem castTDAux_ok (base dtype : String) : ∀ (ns : List String) (t0 t' : Table),
    ns.Nodup →
    (∀ n ∈ ns, n ∈ t0.names) →
    castTDAux base dtype ns t0 = (t', none) →
    t'.names = t0.names ∧
    (∀ n, n ∉ ns → t'.getCol? n = t0.getCol? n) ∧
    (∀ n, n ∈ ns → tdPatternMatch base n = false → t'.getCol? n = t0.getCol? n) ∧
    (∀ n, n ∈ ns → tdPatternMatch base n = true →
      ∃ col newCol, t0.getCol? n = some col ∧
        castColByType dtype col = Except.ok newCol ∧
        t'.getCol? n = some newCol) := by
  intro ns
  induction ns with
  | nil =>
    intro t0 t' _ _ h
    simp only [castTDAux] at h
    cases h
    exact ⟨rfl, fun _ _ => rfl, by simp, by simp⟩
  | cons n ns ih =>
    intro t0 t' hnd hmem h
    have hnmem : n ∈ t0.names := hmem n (List.mem_cons_self n ns)
    have hnd' : ns.Nodup := (List.nodup_cons.mp hnd).2
    have hnin : n ∉ ns := (List.nodup_cons.mp hnd).1
    by_cases hpat : tdPatternMatch base n = true
    · rcases getCol?_of_mem_names t0 n hnmem with ⟨col, hcol⟩
      simp only [castTDAux, hpat, if_true, hcol] at h
      cases hcast : castColByType dtype col with
      | error e => rw [hcast] at h; simp at h
      | ok newCol =>
        rw [hcast] at h
        have hmem' : ∀ m ∈ ns, m ∈ (t0.setCol n newCol).names := by
          intro m hm
          rw [names_setCol_of_mem t0 n newCol hnmem]
          exact hmem m (List.mem_cons_of_mem n hm)
        rcases ih (t0.setCol n newCol) t' hnd' hmem' h with ⟨h1, h2, h3, h4⟩
        refine ⟨by rw [h1, names_setCol_of_mem t0 n newCol hnmem], ?_, ?_, ?_⟩
        · intro m hm
          have hmn : m ≠ n := fun he => hm (he ▸ List.mem_cons_self n ns)
          rw [h2 m (fun hc => hm (List.mem_cons_of_mem n hc)),
            getCol?_setCol_other t0 n newCol m hmn]
        · intro m hm hmf
          rcases List.mem_cons.mp hm with rfl | hm'
          · rw [hpat] at hmf; exact absurd hmf (by simp)
          · have hmn : m ≠ n := fun he => hnin (he ▸ hm')
            rw [h3 m hm' hmf, getCol?_setCol_other t0 n newCol m hmn]
        · intro m hm hmt
          rcases List.mem_cons.mp hm with rfl | hm'
          · refine ⟨col, newCol, hcol, hcast, ?_⟩
            rw [h2 m hnin, getCol?_setCol_same]
          · have hmn : m ≠ n := fun he => hnin (he ▸ hm')
            rcases h4 m hm' hmt with ⟨c1, c2, hc1, hc2, hc3⟩
            rw [getCol?_setCol_other t0 n newCol m hmn] at hc1
            exact ⟨c1, c2, hc1, hc2, hc3⟩
    · have hpat' : tdPatternMatch base n = false := by
        cases hx : tdPatternMatch base n
        · rfl
        · exact absurd hx hpat
      simp only [castTDAux, hpat', Bool.false_eq_true, if_false] at h
      have hmem' : ∀ m ∈ ns, m ∈ t0.names :=
        fun m hm => hmem m (List.mem_cons_of_mem n hm)
      rcases ih t0 t' hnd' hmem' h with ⟨h1, h2, h3, h4⟩
      refine ⟨h1, ?_, ?_, ?_⟩
      · intro m hm
        exact h2 m (fun hc => hm (List.mem_cons_of_mem n hc))
      · intro m hm hmf
        rcases List.mem_cons.mp hm with rfl | hm'
        · exact h2 m hnin
        · exact h3 m hm' hmf
      · intro m hm hmt
        rcases List.mem_cons.mp hm with rfl | hm'
        · rw [hmt] at hpat; exact absurd rfl hpat
        · exact h4 m hm' hmt

theorem castTDAux_err (base dtype : String) : ∀ (ns : List String) (t0 t' : Table)
    (e : String),
    castTDAux base dtype ns t0 = (t', some e) →
    ∃ n cause col, n ∈ ns ∧ tdPatternMatch base n = true ∧
      t'.getCol? n = some col ∧
      castColByType dtype col = Except.error cause ∧
      e = "Failed to convert time-dependent column \x27" ++ n ++ "\x27 to "
          ++ dtype ++ ": " ++ cause := by
  intro ns
  induction ns with
  | nil =>
    intro t0 t' e h
    simp [castTDAux] at h
  | cons n ns ih =>
    intro t0 t' e h
    by_cases hpat : tdPatternMatch base n = true
    · cases hcol : t0.getCol? n with
      | none =>
        simp only [castTDAux, hpat, if_true, hcol] at h
        rcases ih t0 t' e h with ⟨m, cause, col, hm, h2, h3, h4, h5⟩
        exact ⟨m, cause, col, List.mem_cons_of_mem n hm, h2, h3, h4, h5⟩
      | some col =>
        simp only [castTDAux, hpat, if_true, hcol] at h
        cases hcast : castColByType dtype col with
        | ok newCol =>
          rw [hcast] at h
          rcases ih (t0.setCol n newCol) t' e h with ⟨m, cause, c1, hm, h2, h3, h4, h5⟩
          exact ⟨m, cause, c1, List.mem_cons_of_mem n hm, h2, h3, h4, h5⟩
        | error cause =>
          rw [hcast] at h
          cases h
          exact ⟨n, cause, col, List.mem_cons_self n ns, hpat, hcol, hcast, rfl⟩
    · have hpat' : tdPatternMatch base n = false := by
        cases hx : tdPatternMatch base n
        · rfl
        · exact absurd hx hpat
      simp only [castTDAux, hpat', Bool.false_eq_true, if_false] at h
      rcases ih t0 t' e h with ⟨m, cause, col, hm, h2, h3, h4, h5⟩
      exact ⟨m, cause, col, List.mem_cons_of_mem n hm, h2, h3, h4, h5⟩

theorem containsSub_of_eq_append (x y a b : String) (h : y = a ++ x ++ b) :
    containsSub x y = true := by
  subst h
  unfold containsSub
  rw [infixL_iff]
  exact ⟨a.data, b.data, by simp [String.data_append]⟩

/-- Claim C2: cast_time_dependent_variable casts, with the per-type rule
castColByType, exactly the columns whose name matches base_D-<digits>
(pattern tdPatternMatch): on success every matching column holds the cast
result of its original cells and every other column is untouched; a
coercion failure aborts the cast with an error whose message contains the
offending column's name and the underlying cause. -/
theorem claim2_time_dependent_cast (t : Table) (base dtype : String)
    (hnd : t.names.Nodup) :
    (∀ t', cast_time_dependent_variable t base dtype = (t', none) →
      t'.names = t.names ∧
      (∀ n col, t.getCol? n = some col → tdPatternMatch base n = false →
        t'.getCol? n = some col) ∧
      (∀ n col, t.getCol? n = some col → tdPatternMatch base n = true →
        ∃ newCol, castColByType dtype col = Except.ok newCol ∧
          t'.getCol? n = some newCol)) ∧
    (∀ t' e, cast_time_dependent_variable t base dtype = (t', some e) →
      ∃ n cause col, tdPatternMatch base n = true ∧
        t'.getCol? n = some col ∧
        castColByType dtype col = Except.error cause ∧
        e = "Failed to convert time-dependent column \x27" ++ n ++ "\x27 to "
            ++ dtype ++ ": " ++ cause ∧
        containsSub n e = true ∧ containsSub cause e = true) := by
  constructor
  · intro t' h
    rcases castTDAux_ok base dtype t.names t t' hnd (fun n hn => hn) h with
      ⟨h1, _, h3, h4⟩
    refine ⟨h1, ?_, ?_⟩
    · intro n col hcol hf
      rw [h3 n (mem_names_of_getCol? t n col hcol) hf]
      exact hcol
    · intro n col hcol ht
      rcases h4 n (mem_names_of_getCol? t n col hcol) ht with ⟨c1, c2, hc1, hc2, hc3⟩
      rw [hcol] at hc1
      cases hc1
      exact ⟨c2, hc2, hc3⟩
  · intro t' e h
    rcases castTDAux_err base dtype t.names t t' e h with ⟨n, cause, col, _, h2, h3, h4, h5⟩
    refine ⟨n, cause, col, h2, h3, h4, h5, ?_, ?_⟩
    · exact containsSub_of_eq_append n e
        "Failed to convert time-dependent column \x27"
        ("\x27 to " ++ dtype ++ ": " ++ cause)
        (by rw [h5]; simp [String.append_assoc])
    · exact containsSub_of_eq_append cause e
        ("Failed to convert time-dependent column \x27" ++ n ++ "\x27 to " ++ dtype ++ ": ")
        ""
        (by rw [h5]; simp [String.append_assoc])

/-- Claim C2 witness: the failure clause of the time-dependent cast theorem
applied to a concrete table where the column VCD_D-3 holds the non-numeric
text "x" under dtype float64. -/
theorem claim2_time_dependent_cast_witness :
    ∃ n cause col, tdPatternMatch "VCD" n = true ∧
      (Table.mk [("VCD_D-0", [Cell.floatv 1]), ("VCD_D-3", [Cell.str "x"]),
                 ("Donor", [Cell.str "7"])]).getCol? n = some col ∧
      castColByType "float64" col = Except.error cause ∧
      ("Failed to convert time-dependent column \x27VCD_D-3\x27 to float64: Unable to parse string \x22x\x22" : String) =
        "Failed to convert time-dependent column \x27" ++ n ++ "\x27 to "
          ++ "float64" ++ ": " ++ cause ∧
      containsSub n
        "Failed to convert time-dependent column \x27VCD_D-3\x27 to float64: Unable to parse string \x22x\x22" = true ∧
      containsSub cause
        "Failed to convert time-dependent column \x27VCD_D-3\x27 to float64: Unable to parse string \x22x\x22" = true :=
  (claim2_time_dependent_cast
    ⟨[("VCD_D-0", [Cell.str "1"]), ("VCD_D-3", [Cell.str "x"]), ("Donor", [Cell.str "7"])]⟩
    "VCD" "float64" (by decide)).2
    ⟨[("VCD_D-0", [Cell.floatv 1]), ("VCD_D-3", [Cell.str "x"]), ("Donor", [Cell.str "7"])]⟩
    "Failed to convert time-dependent column \x27VCD_D-3\x27 to float64: Unable to parse string \x22x\x22"
    (by rfl)

/-- Claim C10: schema casting is not atomic — whenever
cast_df_to_schema_types reports an error, there is a failing entry index k
such that all earlier entries were processed successfully, and the table
the caller sees is the table obtained by applying the first k entry casts
(the pre-cast state is not restored). -/
theorem claim10_cast_not_atomic :
    ∀ (schema : List (String × SchemaProps)) (t t' : Table) (e : String),
    cast_df_to_schema_types t schema = (t', some e) →
    ∃ k, ∃ hk : k < schema.length,
      cast_df_to_schema_types t (schema.take k) =
        ((schema.take k).foldl (fun acc ent => (castEntry acc ent).1) t, none) ∧
      castEntry ((schema.take k).foldl (fun acc ent => (castEntry acc ent).1) t)
          schema[k] = (t', some e) := by
  intro schema
  induction schema with
  | nil =>
    intro t t' e h
    simp [cast_df_to_schema_types] at h
  | cons ent rest ih =>
    intro t t' e h
    cases hent : castEntry t ent with
    | mk t1 oe =>
      cases oe with
      | none =>
        have h' : cast_df_to_schema_types t1 rest = (t', some e) := by
          rw [show cast_df_to_schema_types t (ent :: rest) =
              (match castEntry t ent with
               | (t2, none) => cast_df_to_schema_types t2 rest
               | (t2, some e2) => (t2, some e2)) from rfl, hent] at h
          exact h
        rcases ih t1 t' e h' with ⟨k, hk, h1, h2⟩
        refine ⟨k + 1, Nat.succ_lt_succ hk, ?_, ?_⟩
        · rw [List.take_succ_cons]
          rw [show cast_df_to_schema_types t (ent :: rest.take k) =
              (match castEntry t ent with
               | (t2, none) => cast_df_to_schema_types t2 (rest.take k)
               | (t2, some e2) => (t2, some e2)) from rfl, hent]
          show cast_df_to_schema_types t1 (rest.take k) = _
          rw [h1, List.foldl_cons, hent]
        · rw [List.take_succ_cons, List.getElem_cons_succ, List.foldl_cons, hent]
          exact h2
      | some e1 =>
        have hinj : t1 = t' ∧ e1 = e := by
          rw [show cast_df_to_schema_types t (ent :: rest) =
              (match castEntry t ent with
               | (t2, none) => cast_df_to_schema_types t2 rest
               | (t2, some e2) => (t2, some e2)) from rfl, hent] at h
          exact ⟨congrArg Prod.fst h, by simpa using congrArg Prod.snd h⟩
        refine ⟨0, Nat.succ_pos rest.length, by simp [cast_df_to_schema_types], ?_⟩
        simp only [List.take_zero, List.foldl_nil, List.getElem_cons_zero]
        rw [hent, hinj.1, hinj.2]

/-- Claim C10 witness: a two-entry schema where the second entry fails; the
caller-visible table already holds the first entry's column cast to int
(str "1" became intv 1), demonstrating that the pre-cast state is not
restored. -/
theorem claim10_cast_not_atomic_witness :
    (∃ k, ∃ hk : k < ([("A", ⟨"int64", false⟩), ("B", ⟨"int64", false⟩)] :
        List (String × SchemaProps)).length,
      cast_df_to_schema_types ⟨[("A", [Cell.str "1"]), ("B", [Cell.str "x"])]⟩
          (([("A", ⟨"int64", false⟩), ("B", ⟨"int64", false⟩)] :
            List (String × SchemaProps)).take k) =
        ((([("A", ⟨"int64", false⟩), ("B", ⟨"int64", false⟩)] :
            List (String × SchemaProps)).take k).foldl
          (fun acc ent => (castEntry acc ent).1)
          ⟨[("A", [Cell.str "1"]), ("B", [Cell.str "x"])]⟩, none) ∧
      castEntry ((([("A", ⟨"int64", false⟩), ("B", ⟨"int64", false⟩)] :
            List (String × SchemaProps)).take k).foldl
          (fun acc ent => (castEntry acc ent).1)
          ⟨[("A", [Cell.str "1"]), ("B", [Cell.str "x"])]⟩)
          (([("A", ⟨"int64", false⟩), ("B", ⟨"int64", false⟩)] :
            List (String × SchemaProps))[k]) =
        (⟨[("A", [Cell.intv 1]), ("B", [Cell.str "x"])]⟩,
         some "Failed to convert column \x27B\x27 to int64: Unable to parse string \x22x\x22")) ∧
    (Table.mk [("A", [Cell.intv 1]), ("B", [Cell.str "x"])]).getCol? "A" =
      some [Cell.intv 1] ∧
    (Table.mk [("A", [Cell.intv 1]), ("B", [Cell.str "x"])]) ≠
      (Table.mk [("A", [Cell.str "1"]), ("B", [Cell.str "x"])]) := by
  refine ⟨?_, by rfl, by decide⟩
  exact claim10_cast_not_atomic
    [("A", ⟨"int64", false⟩), ("B", ⟨"int64", false⟩)]
    ⟨[("A", [Cell.str "1"]), ("B", [Cell.str "x"])]⟩
    ⟨[("A", [Cell.intv 1]), ("B", [Cell.str "x"])]⟩
    "Failed to convert column \x27B\x27 to int64: Unable to parse string \x22x\x22"
    (by rfl)

/-! ### Volume derivation
(src/cartool/handle_data/clean_perfusion_data.py, lines 71-102: the Volume
part of derive_new_columns, through the Nr_of_Wells drop) -/

/-- First match of the pattern (\d+\.?\d*) in a character list: the first
maximal digit run, an optional following dot, and a further digit run. -/
def firstDecimalTokenAux : List Char → Option (List Char)
  | [] => none
  | c :: rest =>
    if c.isDigit then
      let ds := (c :: rest).takeWhile Char.isDigit
      match (c :: rest).drop ds.length with
      | '.' :: rest2 => some (ds ++ '.' :: rest2.takeWhile Char.isDigit)
      | _ => some ds
    else firstDecimalTokenAux rest

/-- First match of (\d+\.?\d*) in a string (pandas str.extract, group 0). -/
def firstDecimalToken (s : String) : Option String :=
  (firstDecimalTokenAux s.data).map String.mk

/-- The lookahead \s*-?\s*(?:well|wp) of the well-count pattern. -/
def wellLookahead (l : List Char) : Bool :=
  let l1 := l.dropWhile Char.isWhitespace
  let l2 := match l1 with
    | '-' :: r => r
    | _ => l1
  let l3 := l2.dropWhile Char.isWhitespace
  startsWithL "well".data l3 || startsWithL "wp".data l3

/-- First match of (\d+)(?=\s*-?\s*(?:well|wp)): at each start position the
greedy digit run backtracks from longest to shortest until the lookahead
holds; search advances one character on failure. -/
def wellTokenAux : List Char → Option (List Char)
  | [] => none
  | c :: rest =>
    let here : Option (List Char) :=
      if c.isDigit then
        let run := ((c :: rest).takeWhile Char.isDigit).length
        (greedyLens 1 run).findSome? (fun k =>
          if wellLookahead ((c :: rest).drop k) then some ((c :: rest).take k)
          else none)
      else none
    match here with
    | some r => some r
    | none => wellTokenAux rest

/-- First match of the well-count pattern in a string. -/
def wellToken (s : String) : Option String :=
  (wellTokenAux s.data).map String.mk

/-- df.loc[mask, col] = values: keep the old cell where the mask is false,
take the new cell where it is true. -/
def maskedAssign (mask : List Bool) (old new : List Cell) : List Cell :=
  List.zipWith (fun m (p : Cell × Cell) => if m then p.2 else p.1) mask (old.zip new)

/-- Removal of a column by name (df.drop(col, axis=1); KeyError if absent). -/
def dropCol (t : Table) (n : String) : Option Table :=
  if t.names.contains n then some ⟨t.cols.filter (fun c => !(c.1 == n))⟩ else none

/-- The {"48": 0.4, "24": 0.1} well-count lookup applied to the astype(str)
rendering of a cell. -/
def wellVolumeLookup (c : Cell) : Cell :=
  if c.render == "48" then Cell.floatv ((2 : Rat) / 5)
  else if c.render == "24" then Cell.floatv ((1 : Rat) / 10)
  else Cell.na

/-- STB extraction: first decimal token of the astype(str) rendering. -/
def stbExtract (c : Cell) : Cell :=
  match firstDecimalToken c.render with
  | some d => Cell.str d
  | none => Cell.na

/-- Static extraction: first well-count token of the astype(str) rendering. -/
def wellExtract (c : Cell) : Cell :=
  match wellToken c.render with
  | some w => Cell.str w
  | none => Cell.na

/-- Embedding of the Volume derivation of derive_new_columns (lines 71-102):
insert a missing-valued Volume column right after System; where System ==
"STB" assign the first decimal token of AMBR15_Run's text; where System ==
"Static" build the temporary Nr_of_Wells column from Static_Run's
well-count token, map it through {48: 0.4, 24: 0.1} into Volume, and drop
the temporary column. -/
def derive_volume (t : Table) : Except String Table :=
  match t.names.findIdx? (fun n => n == "System") with
  | none => Except.error "KeyError: System"
  | some sysIdx =>
    if t.names.contains "Volume" then
      Except.error "cannot insert Volume, already exists"
    else
      match t.getCol? "System", t.getCol? "AMBR15_Run", t.getCol? "Static_Run" with
      | some sys, some amb, some sta =>
        let nr := t.nrows
        let t1 : Table :=
          ⟨t.cols.take (sysIdx + 1) ++
            ("Volume", List.replicate nr Cell.na) :: t.cols.drop (sysIdx + 1)⟩
        let mask := sys.map (fun c => c.pdEq (Cell.str "STB"))
        let extracted := amb.map stbExtract
        let t2 := t1.setCol "Volume" (maskedAssign mask (List.replicate nr Cell.na) extracted)
        let mask2 := sys.map (fun c => c.pdEq (Cell.str "Static"))
        let wells := sta.map wellExtract
        let t3 : Table :=
          if t2.names.contains "Nr_of_Wells" then t2
          else ⟨t2.cols ++ [("Nr_of_Wells", List.replicate nr Cell.na)]⟩
        let t4 := t3.setCol "Nr_of_Wells"
          (maskedAssign mask2 ((t3.getCol? "Nr_of_Wells").getD (List.replicate nr Cell.na)) wells)
        let volFromWells := ((t4.getCol? "Nr_of_Wells").getD []).map wellVolumeLookup
        let t5 := t4.setCol "Volume"
          (maskedAssign mask2 ((t4.getCol? "Volume").getD []) volFromWells)
        match dropCol t5 "Nr_of_Wells" with
        | some t6 => Except.ok t6
        | none => Except.error "KeyError: Nr_of_Wells"
      | _, _, _ => Except.error "KeyError"

/-- The rowwise value the claim is amended to: Static rows map their
well-count token through the volume table, STB rows take the first decimal
token of the AMBR15_Run text (as text), all other rows stay missing. -/
def volumeSpecCell (s a st : Cell) : Cell :=
  if s.pdEq (Cell.str "Static") then wellVolumeLookup (wellExtract st)
  else if s.pdEq (Cell.str "STB") then stbExtract a
  else Cell.na

/-- Pointwise volume specification over the System, AMBR15_Run and
Static_Run columns. -/
def volumeSpec : List Cell → List Cell → List Cell → List Cell
  | s :: ss, a :: aa, st :: sts => volumeSpecCell s a st :: volumeSpec ss aa sts
  | _, _, _ => []

/-! ### Lemmas for column insertion, appending, dropping -/

theorem find?_filter_of_imp {α : Type} (p q : α → Bool)
    (h : ∀ a, p a = true → q a = true) : ∀ l : List α,
    (l.filter q).find? p = l.find? p := by
  intro l
  induction l with
  | nil => rfl
  | cons a l ih =>
    by_cases hp : p a = true
    · rw [List.filter_cons_of_pos (h a hp), List.find?_cons_of_pos _ hp,
        List.find?_cons_of_pos _ hp]
    · have hp' : p a = false := by
        cases hx : p a
        · rfl
        · exact absurd hx hp
      by_cases hq : q a = true
      · rw [List.filter_cons_of_pos hq, List.find?_cons_of_neg _ (by simp [hp']),
          List.find?_cons_of_neg _ (by simp [hp'])]
        exact ih
      · have hq' : q a = false := by
          cases hx : q a
          · rfl
          · exact absurd hx hq
        rw [List.filter_cons_of_neg (by simp [hq']), List.find?_cons_of_neg _ (by simp [hp'])]
        exact ih

theorem insert_getCol?_same (t : Table) (i : Nat) (nm : String) (cells : List Cell)
    (h : nm ∉ t.names) :
    (Table.mk (t.cols.take i ++ (nm, cells) :: t.cols.drop i)).getCol? nm =
      some cells := by
  unfold Table.getCol?
  rw [show (Table.mk (t.cols.take i ++ (nm, cells) :: t.cols.drop i)).cols =
    t.cols.take i ++ (nm, cells) :: t.cols.drop i from rfl]
  rw [List.find?_append]
  have h1 : (t.cols.take i).find? (fun c => c.1 == nm) = none := by
    rw [List.find?_eq_none]
    intro x hx
    intro hb
    apply h
    unfold Table.names
    have : x.1 = nm := by simpa using hb
    rw [← this]
    exact List.mem_map_of_mem Prod.fst (List.mem_of_mem_take hx)
  rw [h1]
  simp [List.find?]

theorem insert_getCol?_other (t : Table) (i : Nat) (nm : String) (cells : List Cell)
    (n : String) (h : n ≠ nm) :
    (Table.mk (t.cols.take i ++ (nm, cells) :: t.cols.drop i)).getCol? n =
      t.getCol? n := by
  unfold Table.getCol?
  rw [show (Table.mk (t.cols.take i ++ (nm, cells) :: t.cols.drop i)).cols =
    t.cols.take i ++ (nm, cells) :: t.cols.drop i from rfl]
  rw [List.find?_append]
  rw [List.find?_cons_of_neg _ (by simpa using fun he => h he.symm)]
  conv_rhs => rw [← List.take_append_drop i t.cols]
  rw [List.find?_append]

theorem insert_mem_names (t : Table) (i : Nat) (nm : String) (cells : List Cell)
    (n : String) :
    (n ∈ (Table.mk (t.cols.take i ++ (nm, cells) :: t.cols.drop i)).names ↔
      n = nm ∨ n ∈ t.names) := by
  unfold Table.names
  rw [show (Table.mk (t.cols.take i ++ (nm, cells) :: t.cols.drop i)).cols =
    t.cols.take i ++ (nm, cells) :: t.cols.drop i from rfl]
  simp only [List.map_append, List.map_cons, List.mem_append, List.mem_cons]
  conv_rhs => rw [← List.take_append_drop i t.cols]
  simp only [List.map_append, List.mem_append]
  tauto

theorem append_getCol?_same (t : Table) (nm : String) (cells : List Cell)
    (h : nm ∉ t.names) :
    (Table.mk (t.cols ++ [(nm, cells)])).getCol? nm = some cells := by
  unfold Table.getCol?
  rw [show (Table.mk (t.cols ++ [(nm, cells)])).cols = t.cols ++ [(nm, cells)] from rfl]
  rw [List.find?_append]
  have h1 : t.cols.find? (fun c => c.1 == nm) = none := by
    rw [List.find?_eq_none]
    intro x hx hb
    apply h
    unfold Table.names
    have : x.1 = nm := by simpa using hb
    rw [← this]
    exact List.mem_map_of_mem Prod.fst hx
  rw [h1]
  simp [List.find?]

theorem append_getCol?_other (t : Table) (nm : String) (cells : List Cell)
    (n : String) (h : n ≠ nm) :
    (Table.mk (t.cols ++ [(nm, cells)])).getCol? n = t.getCol? n := by
  unfold Table.getCol?
  rw [show (Table.mk (t.cols ++ [(nm, cells)])).cols = t.cols ++ [(nm, cells)] from rfl]
  rw [List.find?_append]
  rw [show ([(nm, cells)].find? (fun c => c.1 == n)) = none from by
    rw [List.find?_eq_none]
    intro x hx hb
    simp at hx
    rw [hx] at hb
    have h2 : nm = n := by simpa using hb
    exact h h2.symm]
  cases t.cols.find? (fun c => c.1 == n) <;> rfl

theorem append_mem_names (t : Table) (nm : String) (cells : List Cell) (n : String) :
    n ∈ (Table.mk (t.cols ++ [(nm, cells)])).names ↔ n ∈ t.names ∨ n = nm := by
  unfold Table.names
  simp [List.mem_append]

theorem dropCol_getCol?_other (t : Table) (nm n : String) (h : n ≠ nm) :
    (Table.mk (t.cols.filter (fun c => !(c.1 == nm)))).getCol? n = t.getCol? n := by
  unfold Table.getCol?
  rw [show (Table.mk (t.cols.filter (fun c => !(c.1 == nm)))).cols =
    t.cols.filter (fun c => !(c.1 == nm)) from rfl]
  rw [find?_filter_of_imp _ _ ?_]
  intro a ha
  have : a.1 = n := by simpa using ha
  simp [this, h]

theorem dropCol_not_mem_names (t : Table) (nm : String) :
    nm ∉ (Table.mk (t.cols.filter (fun c => !(c.1 == nm)))).names := by
  unfold Table.names
  intro hmem
  rcases List.mem_map.mp hmem with ⟨c, hc, hfst⟩
  have := List.of_mem_filter hc
  rw [hfst] at this
  simp at this

theorem length_of_getCol?_uniform (t : Table) (hu : t.Uniform) (n : String)
    (c : List Cell) (h : t.getCol? n = some c) : c.length = t.nrows := by
  unfold Table.getCol? at h
  cases hf : t.cols.find? (fun x => x.1 == n) with
  | none => rw [hf] at h; simp at h
  | some p =>
    rw [hf] at h
    have hp : p.2 = c := by simpa using h
    rw [← hp]
    exact hu p (List.mem_of_find?_eq_some hf)

theorem maskedAssign_cons (m : Bool) (ms : List Bool) (o : Cell) (os : List Cell)
    (n : Cell) (ns : List Cell) :
    maskedAssign (m :: ms) (o :: os) (n :: ns) =
      (if m then n else o) :: maskedAssign ms os ns := by
  simp [maskedAssign]

theorem volumeSpec_eq : ∀ (sys amb sta : List Cell) (nr : Nat),
    sys.length = nr → amb.length = nr → sta.length = nr →
    maskedAssign (sys.map (fun c => c.pdEq (Cell.str "Static")))
      (maskedAssign (sys.map (fun c => c.pdEq (Cell.str "STB")))
        (List.replicate nr Cell.na) (amb.map stbExtract))
      ((maskedAssign (sys.map (fun c => c.pdEq (Cell.str "Static")))
        (List.replicate nr Cell.na) (sta.map wellExtract)).map wellVolumeLookup) =
    volumeSpec sys amb sta := by
  intro sys
  induction sys with
  | nil =>
    intro amb sta nr h1 h2 h3
    simp [maskedAssign, volumeSpec]
  | cons s ss ih =>
    intro amb sta nr h1 h2 h3
    cases nr with
    | zero => simp at h1
    | succ k =>
      cases amb with
      | nil => simp at h2
      | cons a aa =>
        cases sta with
        | nil => simp at h3
        | cons st sts =>
          simp only [List.map_cons, List.replicate_succ, maskedAssign_cons,
            List.map_cons]
          rw [ih aa sts k (by simpa using h1) (by simpa using h2) (by simpa using h3)]
          show (if s.pdEq (Cell.str "Static") = true then
              wellVolumeLookup (if s.pdEq (Cell.str "Static") = true then wellExtract st else Cell.na)
            else if s.pdEq (Cell.str "STB") = true then stbExtract a else Cell.na)
            :: volumeSpec ss aa sts = volumeSpecCell s a st :: volumeSpec ss aa sts
          by_cases hs : s.pdEq (Cell.str "Static") = true
          · simp [volumeSpecCell, hs]
          · simp [volumeSpecCell, hs]

theorem contains_false_of_not_mem (l : List String) (a : String) (h : a ∉ l) :
    l.contains a = false := by
  cases hx : l.contains a
  · rfl
  · exact absurd (List.mem_of_elem_eq_true hx) h

theorem contains_true_of_mem (l : List String) (a : String) (h : a ∈ l) :
    l.contains a = true :=
  List.elem_eq_true_of_mem h

/-- Claim C6 counterexample: for System "STB" the code extracts the FIRST
decimal token anywhere in the AMBR15_Run text (the regex has no "mL"
context), so "run 3 15mL" yields Volume "3", not the number 15 that
immediately precedes "mL" as the claim requires. -/
theorem claim6_volume_counterexample :
    derive_volume ⟨[("System", [Cell.str "STB"]),
                    ("AMBR15_Run", [Cell.str "run 3 15mL"]),
                    ("Static_Run", [Cell.na])]⟩ =
      Except.ok ⟨[("System", [Cell.str "STB"]), ("Volume", [Cell.str "3"]),
                  ("AMBR15_Run", [Cell.str "run 3 15mL"]),
                  ("Static_Run", [Cell.na])]⟩ ∧
    Cell.str "3" ≠ Cell.str "15" := by
  exact ⟨rfl, by decide⟩

/-- Claim C6 (amended): in the Volume derivation, for rows with System ==
"STB" the Volume cell is the text of the FIRST decimal-number token of the
AMBR15_Run text (not necessarily the one preceding "mL"), so
"15mL run A" yields "15"; for rows with System == "Static" the integer
well-count token preceding "well"/"wp" in Static_Run is mapped through
{48: 0.4, 24: 0.1}, so "24-well plate" yields 0.1; rows matching neither
system keep Volume missing; every column other than the inserted Volume
and the temporary Nr_of_Wells is untouched, and the temporary column is
absent from the result. -/
theorem claim6_volume_amended :
    ∀ (t t' : Table) (sys amb sta : List Cell),
    t.Uniform →
    "Nr_of_Wells" ∉ t.names →
    t.getCol? "System" = some sys →
    t.getCol? "AMBR15_Run" = some amb →
    t.getCol? "Static_Run" = some sta →
    derive_volume t = Except.ok t' →
    t'.getCol? "Volume" = some (volumeSpec sys amb sta) ∧
    (∀ n, n ≠ "Volume" → n ≠ "Nr_of_Wells" → t'.getCol? n = t.getCol? n) ∧
    "Nr_of_Wells" ∉ t'.names := by
  intro t t' sys amb sta hu hnw hsys hamb hsta hok
  unfold derive_volume at hok
  cases hidx : t.names.findIdx? (fun n => n == "System") with
  | none => rw [hidx] at hok; exact absurd hok (by simp)
  | some sysIdx =>
    rw [hidx] at hok
    dsimp only at hok
    by_cases hvol : "Volume" ∈ t.names
    · rw [if_pos (by simpa using contains_true_of_mem _ _ hvol)] at hok
      exact absurd hok (by simp)
    · rw [if_neg (by
        intro hc
        rw [contains_false_of_not_mem t.names "Volume" hvol] at hc
        exact Bool.false_ne_true hc)] at hok
      rw [hsys, hamb, hsta] at hok
      dsimp only at hok
      -- name the intermediate tables of the source
      have hVolNe : ("Volume" : String) ≠ "Nr_of_Wells" := by decide
      set nr := t.nrows with hnr
      set t1 : Table := ⟨t.cols.take (sysIdx + 1) ++
        ("Volume", List.replicate nr Cell.na) :: t.cols.drop (sysIdx + 1)⟩ with ht1
      set mask := sys.map (fun c => c.pdEq (Cell.str "STB")) with hmask
      set extracted := amb.map stbExtract with hextr
      set t2 := t1.setCol "Volume" (maskedAssign mask (List.replicate nr Cell.na) extracted)
        with ht2
      set mask2 := sys.map (fun c => c.pdEq (Cell.str "Static")) with hmask2
      set wells := sta.map wellExtract with hwells
      -- facts about names
      have hVolMem1 : "Volume" ∈ t1.names := by
        rw [ht1]
        exact (insert_mem_names t (sysIdx + 1) "Volume" (List.replicate nr Cell.na) "Volume").mpr
          (Or.inl rfl)
      have hNamesT2 : t2.names = t1.names := by
        rw [ht2]
        exact names_setCol_of_mem t1 "Volume" _ hVolMem1
      have hNW2 : "Nr_of_Wells" ∉ t2.names := by
        rw [hNamesT2, ht1]
        intro hmem
        rcases (insert_mem_names t (sysIdx + 1) "Volume" (List.replicate nr Cell.na)
          "Nr_of_Wells").mp hmem with h | h
        · exact hVolNe h.symm
        · exact hnw h
      rw [show t2.names.contains "Nr_of_Wells" =
        false from contains_false_of_not_mem _ _ hNW2] at hok
      rw [if_neg (by simp)] at hok
      set t3 : Table := ⟨t2.cols ++ [("Nr_of_Wells", List.replicate nr Cell.na)]⟩ with ht3
      have hNW3get : t3.getCol? "Nr_of_Wells" = some (List.replicate nr Cell.na) := by
        rw [ht3]
        exact append_getCol?_same t2 "Nr_of_Wells" _ hNW2
      rw [hNW3get] at hok
      dsimp only [Option.getD_some] at hok
      set t4 := t3.setCol "Nr_of_Wells" (maskedAssign mask2 (List.replicate nr Cell.na) wells)
        with ht4
      have hNW4get : t4.getCol? "Nr_of_Wells" =
          some (maskedAssign mask2 (List.replicate nr Cell.na) wells) := by
        rw [ht4]; exact getCol?_setCol_same t3 "Nr_of_Wells" _
      have hVol2get : t2.getCol? "Volume" =
          some (maskedAssign mask (List.replicate nr Cell.na) extracted) := by
        rw [ht2]; exact getCol?_setCol_same t1 "Volume" _
      have hVol4get : t4.getCol? "Volume" =
          some (maskedAssign mask (List.replicate nr Cell.na) extracted) := by
        rw [ht4, getCol?_setCol_other t3 "Nr_of_Wells" _ "Volume" hVolNe, ht3,
          append_getCol?_other t2 "Nr_of_Wells" _ "Volume" hVolNe]
        exact hVol2get
      rw [hNW4get, hVol4get] at hok
      dsimp only [Option.getD_some] at hok
      set volFinal := maskedAssign mask2 (maskedAssign mask (List.replicate nr Cell.na) extracted)
        ((maskedAssign mask2 (List.replicate nr Cell.na) wells).map wellVolumeLookup)
        with hvolFinal
      set t5 := t4.setCol "Volume" volFinal with ht5
      -- the temporary column is present in t5, so the drop succeeds
      have hNW3mem : "Nr_of_Wells" ∈ t3.names := by
        rw [ht3]
        exact (append_mem_names t2 "Nr_of_Wells" _ "Nr_of_Wells").mpr (Or.inr rfl)
      have hNamesT4 : t4.names = t3.names := by
        rw [ht4]; exact names_setCol_of_mem t3 "Nr_of_Wells" _ hNW3mem
      have hVol4mem : "Volume" ∈ t4.names := by
        rw [hNamesT4, ht3]
        exact (append_mem_names t2 "Nr_of_Wells" _ "Volume").mpr
          (Or.inl (by rw [hNamesT2]; exact hVolMem1))
      have hNamesT5 : t5.names = t4.names := by
        rw [ht5]; exact names_setCol_of_mem t4 "Volume" _ hVol4mem
      have hNW5mem : "Nr_of_Wells" ∈ t5.names := by
        rw [hNamesT5, hNamesT4]; exact hNW3mem
      rw [show dropCol t5 "Nr_of_Wells" =
          some ⟨t5.cols.filter (fun c => !(c.1 == "Nr_of_Wells"))⟩ from by
        unfold dropCol
        rw [contains_true_of_mem _ _ hNW5mem]
        rfl] at hok
      have ht' : t' = ⟨t5.cols.filter (fun c => !(c.1 == "Nr_of_Wells"))⟩ :=
        (Except.ok.inj hok).symm
      subst ht'
      -- lengths from uniformity
      have hlsys : sys.length = nr := length_of_getCol?_uniform t hu _ _ hsys
      have hlamb : amb.length = nr := length_of_getCol?_uniform t hu _ _ hamb
      have hlsta : sta.length = nr := length_of_getCol?_uniform t hu _ _ hsta
      refine ⟨?_, ?_, ?_⟩
      · rw [dropCol_getCol?_other t5 "Nr_of_Wells" "Volume" hVolNe, ht5,
          getCol?_setCol_same t4 "Volume" volFinal, hvolFinal, hmask, hmask2,
          hextr, hwells]
        rw [volumeSpec_eq sys amb sta nr hlsys hlamb hlsta]
      · intro n hnVol hnNW
        rw [dropCol_getCol?_other t5 "Nr_of_Wells" n hnNW, ht5,
          getCol?_setCol_other t4 "Volume" volFinal n hnVol, ht4,
          getCol?_setCol_other t3 "Nr_of_Wells" _ n hnNW, ht3,
          append_getCol?_other t2 "Nr_of_Wells" _ n hnNW, ht2,
          getCol?_setCol_other t1 "Volume" _ n hnVol, ht1]
        exact insert_getCol?_other t (sysIdx + 1) "Volume" _ n hnVol
      · exact dropCol_not_mem_names t5 "Nr_of_Wells"

/-- Claim C6 witness: the amended volume theorem applied to a concrete
three-row table covering the STB, Static and neither cases, with the
claim's own example texts. -/
theorem claim6_volume_amended_witness :
    (Table.mk [("System", [Cell.str "STB", Cell.str "Static", Cell.str "Other"]),
               ("Volume", [Cell.str "15", Cell.floatv ((1 : Rat)/10), Cell.na]),
               ("AMBR15_Run", [Cell.str "15mL run A", Cell.na, Cell.na]),
               ("Static_Run", [Cell.na, Cell.str "24-well plate", Cell.na])]).getCol? "Volume" =
      some (volumeSpec
        [Cell.str "STB", Cell.str "Static", Cell.str "Other"]
        [Cell.str "15mL run A", Cell.na, Cell.na]
        [Cell.na, Cell.str "24-well plate", Cell.na]) ∧
    volumeSpec
        [Cell.str "STB", Cell.str "Static", Cell.str "Other"]
        [Cell.str "15mL run A", Cell.na, Cell.na]
        [Cell.na, Cell.str "24-well plate", Cell.na] =
      [Cell.str "15", Cell.floatv ((1 : Rat)/10), Cell.na] := by
  have h := claim6_volume_amended
    ⟨[("System", [Cell.str "STB", Cell.str "Static", Cell.str "Other"]),
      ("AMBR15_Run", [Cell.str "15mL run A", Cell.na, Cell.na]),
      ("Static_Run", [Cell.na, Cell.str "24-well plate", Cell.na])]⟩
    ⟨[("System", [Cell.str "STB", Cell.str "Static", Cell.str "Other"]),
      ("Volume", [Cell.str "15", Cell.floatv ((1 : Rat)/10), Cell.na]),
      ("AMBR15_Run", [Cell.str "15mL run A", Cell.na, Cell.na]),
      ("Static_Run", [Cell.na, Cell.str "24-well plate", Cell.na])]⟩
    [Cell.str "STB", Cell.str "Static", Cell.str "Other"]
    [Cell.str "15mL run A", Cell.na, Cell.na]
    [Cell.na, Cell.str "24-well plate", Cell.na]
    (by intro c hc; simp at hc; rcases hc with hc | hc | hc <;> simp [hc, Table.nrows])
    (by decide) (by rfl) (by rfl) (by rfl) (by rfl)
  exact ⟨h.1, by rfl⟩

/-! ### Run-id backfill
(src/cartool/handle_data/clean_perfusion_data.py, lines 250-268, identical
logic in src/cartool/clean_perfusion_data.py lines 245-263)

The two columns the function touches are modelled directly: after
extract_dates_str and astype("Int64") the Date column holds strings or
missing and the Run column holds integers or missing, so the embedding
works over Option String and Option Int.  Pandas elementwise == never
matches a missing value (NaN == anything is False), while unique() keeps
one representative of the missing value.

Crucially, runs = df["Run"].unique().to_numpy() is an OBJECT ndarray that
contains pd.NA whenever the Run column has any missing value, and the
membership test run_number in runs is (runs == run_number).any(): pd.NA
propagates through ==, and truth-testing pd.NA raises
TypeError("boolean value of NA is ambiguous").  The while loop can only
terminate through a membership test with no match, so whenever a date
group triggers synthesis while the Run column contains a missing value,
the source raises instead of assigning.  When no missing value is present,
membership works normally — but then only empty (missing-date) groups can
trigger, whose assignment touches no row.  The embedding therefore returns
Except: an error in the trigger-with-NA case, and the unchanged column
otherwise. -/

/-- Pandas elementwise equality of a Date cell against a scalar from
unique(): missing never matches. -/
def pdEqOptStr (x d : Option String) : Bool :=
  match x, d with
  | some a, some b => a == b
  | _, _ => false

/-- The linear-probe while loop with fuel (the loop consumes one distinct
array element per collision, so length-plus-one fuel always suffices); only
reached when the runs array holds no pd.NA, in which case membership is the
ordinary integer membership. -/
def probeRunF : Nat → Int → List Int → Int
  | 0, n, _ => n
  | fuel + 1, n, runs => if n ∈ runs then probeRunF fuel (n + 1) runs else n

/-- Smallest value at or above n that is not in the runs list. -/
def probeRun (n : Int) (runs : List Int) : Int :=
  probeRunF (runs.length + 1) n runs

/-- pandas unique(): one representative per value, in first-seen order. -/
def ukfAux {α : Type} [DecidableEq α] (seen : List α) : List α → List α
  | [] => []
  | a :: rest => if a ∈ seen then ukfAux seen rest else a :: ukfAux (a :: seen) rest

/-- pandas unique() over a list. -/
def uniqueKeepFirst {α : Type} [DecidableEq α] (l : List α) : List α :=
  ukfAux [] l

/-- df.loc[mask, "Run"].isna().all(): every masked row currently missing
(vacuously true for an empty selection). -/
def maskAllNa (mask : List Bool) (cur : List (Option Int)) : Bool :=
  (mask.zip cur).all (fun p => !p.1 || p.2.isNone)

/-- df.loc[mask, "Run"] = n. -/
def maskSetRun (mask : List Bool) (cur : List (Option Int)) (n : Int) : List (Option Int) :=
  List.zipWith (fun m c => if m then some n else c) mask cur

/-- The enumerate loop of create_non_available_run_tag: for the i-th
distinct date, when every row of its ==-group has a missing Run, the source
enters the probe loop whose first membership test raises TypeError if the
runs array contains pd.NA (hasNA); with no pd.NA present the probe runs
normally, the fresh number is recorded and assigned to the group. -/
def backfillAux (dates : List (Option String)) (hasNA : Bool) :
    List (Option String) → Nat → List Int → List (Option Int) →
    Except String (List (Option Int))
  | [], _, _, cur => Except.ok cur
  | d :: rest, i, runsL, cur =>
    let mask := dates.map (fun x => pdEqOptStr x d)
    if maskAllNa mask cur then
      if hasNA then Except.error "boolean value of NA is ambiguous"
      else
        let n := probeRun (Int.ofNat (i + 1)) runsL
        backfillAux dates hasNA rest (i + 1) (runsL ++ [n]) (maskSetRun mask cur n)
    else
      backfillAux dates hasNA rest (i + 1) runsL cur

/-- Embedding of create_non_available_run_tag over the Date and Run
columns: the unique runs array contains pd.NA exactly when the Run column
has a missing entry (appended probe results are plain ints and never add
one); its integer entries are the non-missing unique values. -/
def create_non_available_run_tag (dates : List (Option String))
    (runs : List (Option Int)) : Except String (List (Option Int)) :=
  backfillAux dates (runs.contains none) (uniqueKeepFirst dates) 0
    ((uniqueKeepFirst runs).filterMap id) runs

/-- Claim C1 counterexample: a group with one extracted and one missing Run
is skipped by isna().all(), so its missing row stays missing in the
returned table; a group consisting entirely of missing Runs — the case the
claim calls synthesis — makes the source raise TypeError (the pd.NA in the
unique runs array is truth-tested by run_number in runs) instead of
returning at all; and duplicate extracted Run values are returned
unchanged, not globally unique. -/
theorem claim1_backfill_counterexample :
    create_non_available_run_tag [some "d1", some "d1"] [some 3, none] =
      Except.ok [some 3, none] ∧
    ([some 3, none] : List (Option Int)).getD 1 none = none ∧
    create_non_available_run_tag [some "d", some "d"] [none, none] =
      Except.error "boolean value of NA is ambiguous" ∧
    create_non_available_run_tag [some "a", some "b"] [some 3, some 3] =
      Except.ok [some 3, some 3] := by
  exact ⟨rfl, rfl, rfl, rfl⟩

/-! ### Lemmas for the backfill loop -/

theorem mem_of_contains_eq_true {α : Type} [BEq α] [LawfulBEq α] {l : List α}
    {a : α} (h : l.contains a = true) : a ∈ l :=
  List.mem_of_elem_eq_true h

theorem not_mem_of_contains_eq_false {α : Type} [BEq α] [LawfulBEq α] {l : List α}
    {a : α} (h : l.contains a = false) : a ∉ l := by
  intro hm
  have he : l.elem a = true := List.elem_eq_true_of_mem hm
  rw [show l.contains a = l.elem a from rfl, he] at h
  simp at h

theorem maskSetRun_eq_self (n : Int) : ∀ (mask : List Bool) (cur : List (Option Int)),
    mask.length = cur.length → maskAllNa mask cur = true → none ∉ cur →
    maskSetRun mask cur n = cur := by
  intro mask
  induction mask with
  | nil =>
    intro cur h _ _
    have hc : cur = [] := List.eq_nil_of_length_eq_zero h.symm
    subst hc
    rfl
  | cons m ms ih =>
    intro cur h hall hnn
    cases cur with
    | nil => simp at h
    | cons c cs =>
      simp only [maskAllNa, List.zip_cons_cons, List.all_cons, Bool.and_eq_true] at hall
      have hm : m = false := by
        cases hmv : m
        · rfl
        · exfalso
          rcases hall with ⟨h1, _⟩
          rw [hmv] at h1
          simp only [Bool.not_true, Bool.false_or] at h1
          apply hnn
          cases c with
          | none => exact List.mem_cons_self _ _
          | some v => simp at h1
      show (if m then some n else c) :: maskSetRun ms cs n = c :: cs
      rw [hm]
      simp only [Bool.false_eq_true, if_false]
      congr 1
      exact ih cs (by simpa using h) hall.2
        (fun hmm => hnn (List.mem_cons_of_mem c hmm))

/-- Behavior of the backfill loop over a fixed table: the ok result is the
unchanged Run column, and an error occurs exactly when the runs array has a
missing entry and some remaining distinct date's group is all-missing. -/
theorem backfillAux_spec (dates : List (Option String)) (runs : List (Option Int))
    (hlen : dates.length = runs.length) :
    ∀ (uds : List (Option String)) (i : Nat) (runsL : List Int),
    (∀ out, backfillAux dates (runs.contains none) uds i runsL runs =
        Except.ok out → out = runs) ∧
    (∀ e, backfillAux dates (runs.contains none) uds i runsL runs =
        Except.error e →
      e = "boolean value of NA is ambiguous" ∧ none ∈ runs ∧
      ∃ d ∈ uds, maskAllNa (dates.map (fun x => pdEqOptStr x d)) runs = true) ∧
    ((none ∈ runs ∧ ∃ d ∈ uds,
        maskAllNa (dates.map (fun x => pdEqOptStr x d)) runs = true) →
      ∃ e, backfillAux dates (runs.contains none) uds i runsL runs =
        Except.error e) := by
  intro uds
  induction uds with
  | nil =>
    intro i runsL
    refine ⟨?_, ?_, ?_⟩
    · intro out h
      exact (Except.ok.inj h).symm
    · intro e h
      exact absurd h (by simp [backfillAux])
    · rintro ⟨_, d, hd, _⟩
      simp at hd
  | cons d rest ih =>
    intro i runsL
    by_cases htrig : maskAllNa (dates.map (fun x => pdEqOptStr x d)) runs = true
    · rcases Bool.eq_false_or_eq_true (runs.contains none) with hNA | hNA
      · -- membership truth-tests the pd.NA representative: TypeError
        have hstep : backfillAux dates (runs.contains none) (d :: rest) i runsL runs =
            Except.error "boolean value of NA is ambiguous" := by
          rw [backfillAux, if_pos htrig, hNA]
          rfl
        refine ⟨?_, ?_, ?_⟩
        · intro out h
          rw [hstep] at h
          exact absurd h (by simp)
        · intro e h
          rw [hstep] at h
          exact ⟨(Except.error.inj h).symm, mem_of_contains_eq_true hNA,
            d, List.mem_cons_self _ _, htrig⟩
        · intro _
          exact ⟨_, hstep⟩
      · -- no pd.NA: the probe assigns, but only to an empty selection
        have hnn : none ∉ runs := not_mem_of_contains_eq_false hNA
        have hms : maskSetRun (dates.map (fun x => pdEqOptStr x d)) runs
            (probeRun (Int.ofNat (i + 1)) runsL) = runs :=
          maskSetRun_eq_self _ _ _ (by rw [List.length_map, hlen]) htrig hnn
        have hstep : backfillAux dates (runs.contains none) (d :: rest) i runsL runs =
            backfillAux dates (runs.contains none) rest (i + 1)
              (runsL ++ [probeRun (Int.ofNat (i + 1)) runsL]) runs := by
          rw [backfillAux, if_pos htrig, hNA]
          show backfillAux dates false rest (i + 1)
              (runsL ++ [probeRun (Int.ofNat (i + 1)) runsL])
              (maskSetRun (dates.map (fun x => pdEqOptStr x d)) runs
                (probeRun (Int.ofNat (i + 1)) runsL)) = _
          rw [hms]
        rcases ih (i + 1) (runsL ++ [probeRun (Int.ofNat (i + 1)) runsL]) with
          ⟨ih1, ih2, ih3⟩
        refine ⟨?_, ?_, ?_⟩
        · intro out h
          rw [hstep] at h
          exact ih1 out h
        · intro e h
          rw [hstep] at h
          rcases ih2 e h with ⟨he, hm, d2, hd2, ht2⟩
          exact ⟨he, hm, d2, List.mem_cons_of_mem d hd2, ht2⟩
        · rintro ⟨hm, _⟩
          exact absurd hm hnn
    · have hstep : backfillAux dates (runs.contains none) (d :: rest) i runsL runs =
          backfillAux dates (runs.contains none) rest (i + 1) runsL runs := by
        rw [backfillAux, if_neg htrig]
      rcases ih (i + 1) runsL with ⟨ih1, ih2, ih3⟩
      refine ⟨?_, ?_, ?_⟩
      · intro out h
        rw [hstep] at h
        exact ih1 out h
      · intro e h
        rw [hstep] at h
        rcases ih2 e h with ⟨he, hm, d2, hd2, ht2⟩
        exact ⟨he, hm, d2, List.mem_cons_of_mem d hd2, ht2⟩
      · rintro ⟨hm, d2, hd2, ht2⟩
        rcases List.mem_cons.mp hd2 with heq | hd3
        · exact absurd (heq ▸ ht2) htrig
        · rcases ih3 ⟨hm, d2, hd3, ht2⟩ with ⟨e, he⟩
          exact ⟨e, by rw [hstep]; exact he⟩

/-- A returned backfill result is always the unchanged Run column. -/
theorem create_run_tag_ok_eq (dates : List (Option String))
    (runs : List (Option Int)) (hlen : dates.length = runs.length)
    (out : List (Option Int))
    (h : create_non_available_run_tag dates runs = Except.ok out) : out = runs := by
  exact (backfillAux_spec dates runs hlen (uniqueKeepFirst dates) 0
    ((uniqueKeepFirst runs).filterMap id)).1 out h

/-- Claim C1 (amended): create_non_available_run_tag never modifies a table
it returns.  When some ==-group of the distinct Date values consists
entirely of missing Runs (including the vacuous group of a missing Date
value) while the Run column contains any missing entry, the membership
test run_number in runs truth-tests the pd.NA in the unique runs array and
the function raises TypeError("boolean value of NA is ambiguous") — no
table is returned.  In every returning case, the Run column comes back
exactly as it was: extracted values kept, missing Runs still missing,
duplicate extracted values intact.  No Run value is ever synthesized into
a returned table. -/
theorem claim1_backfill_amended :
    ∀ (dates : List (Option String)) (runs : List (Option Int)),
    dates.length = runs.length →
    (∀ out, create_non_available_run_tag dates runs = Except.ok out →
      out = runs) ∧
    (∀ e, create_non_available_run_tag dates runs = Except.error e →
      e = "boolean value of NA is ambiguous" ∧ none ∈ runs ∧
      ∃ d ∈ uniqueKeepFirst dates,
        maskAllNa (dates.map (fun x => pdEqOptStr x d)) runs = true) ∧
    ((none ∈ runs ∧ ∃ d ∈ uniqueKeepFirst dates,
        maskAllNa (dates.map (fun x => pdEqOptStr x d)) runs = true) →
      ∃ e, create_non_available_run_tag dates runs = Except.error e) := by
  intro dates runs hlen
  exact backfillAux_spec dates runs hlen (uniqueKeepFirst dates) 0
    ((uniqueKeepFirst runs).filterMap id)

/-- Claim C1 witness: the error clause of the amended theorem applied to a
concrete table whose single date group is all-missing, the case where the
source raises instead of synthesizing. -/
theorem claim1_backfill_amended_witness :
    ("boolean value of NA is ambiguous" : String) =
      "boolean value of NA is ambiguous" ∧
    none ∈ ([none, none] : List (Option Int)) ∧
    ∃ d ∈ uniqueKeepFirst [some "d", some "d"],
      maskAllNa (([some "d", some "d"] : List (Option String)).map
        (fun x => pdEqOptStr x d)) [none, none] = true := by
  exact (claim1_backfill_amended [some "d", some "d"] [none, none]
    (by decide)).2.1 "boolean value of NA is ambiguous" (by rfl)

/-! ### handle_date_column
(src/cartool/handle_data/clean_perfusion_data.py, lines 203-247)

The function builds a temporary "cleaned" column (HTML-like tags removed,
whitespace stripped; the .str accessor turns non-string cells into NaN),
inserts the extracted Run column at position 1 as a nullable integer
column, merges newly extracted Donor numbers over the existing Donor
column, rewrites Date with the normalized range string, drops the
temporary column, and finally runs the run-id backfill. -/

/-- Characters following '<' up to the matching '>' of the non-greedy tag
pattern; '.' does not match a newline, so a newline before '>' means no
match at this '<'. -/
def findTagClose : List Char → Option (List Char)
  | [] => none
  | '>' :: rest => some rest
  | '\n' :: _ => none
  | _ :: rest => findTagClose rest

/-- Left-to-right replacement of every non-greedy <...> match by nothing,
with fuel (one unit per character suffices). -/
def removeTagsF : Nat → List Char → List Char
  | 0, l => l
  | _, [] => []
  | fuel + 1, '<' :: rest =>
    (match findTagClose rest with
     | some rest' => removeTagsF fuel rest'
     | none => '<' :: removeTagsF fuel rest)
  | fuel + 1, c :: rest => c :: removeTagsF fuel rest

/-- re.sub of the tag pattern over a character list. -/
def removeTags (l : List Char) : List Char :=
  removeTagsF (l.length + 1) l

/-- df["Date"].replace(tag pattern, "", regex=True).str.strip() on one
cell: string cells are tag-stripped and trimmed; everything else (missing
or non-string) becomes NaN under the .str accessor. -/
def cleanedCell : Cell → Cell
  | Cell.str s => Cell.str (pyStrip (String.mk (removeTags s.data)))
  | _ => Cell.na

/-- .str.extract of the RUN pattern, group 0, on one cleaned cell. -/
def extractRun : Cell → Cell
  | Cell.str s =>
    (match reSearch runToks s.data with
     | some [d] => Cell.str d
     | _ => Cell.na)
  | _ => Cell.na

/-- .str.extract of the Donor pattern, group 0, on one cleaned cell. -/
def extractDonor : Cell → Cell
  | Cell.str s =>
    (match reSearch donorToks s.data with
     | some [d] => Cell.str d
     | _ => Cell.na)
  | _ => Cell.na

/-- astype("Int64") on an extracted cell (the extraction yields digit
strings or missing, which convert losslessly). -/
def toInt64Cell : Cell → Cell
  | Cell.str s =>
    (match digitsToNat s with
     | some n => Cell.intv (Int.ofNat n)
     | none => Cell.na)
  | Cell.intv n => Cell.intv n
  | Cell.floatv q => Cell.intv (Int.tdiv q.num (q.den : Int))
  | Cell.na => Cell.na

/-- combine_first on one row: the new value wins unless it is missing. -/
def combineFirstCell (newC oldC : Cell) : Cell :=
  if newC.isNa then oldC else newC

/-- df["cleaned"].apply(extract_dates_str) on one cell: the Python function
first applies str(...), so a missing cell becomes the text "nan", which
matches neither grammar. -/
def extractDatesCell (c : Cell) : Cell :=
  match extract_dates_str c.render with
  | some r => Cell.str r
  | none => Cell.na

/-- Bridge to the backfill model: Date cells are strings or missing. -/
def cellToOptStr : Cell → Option String
  | Cell.str s => some s
  | _ => none

/-- Bridge to the backfill model: Run cells are Int64 or missing. -/
def cellToOptInt : Cell → Option Int
  | Cell.intv n => some n
  | _ => none

/-- Bridge back from the backfill model. -/
def optIntToCell : Option Int → Cell
  | some n => Cell.intv n
  | none => Cell.na

/-- df.insert(i, nm, cells): raises when the column already exists. -/
def insertColAt (t : Table) (i : Nat) (nm : String) (cells : List Cell) :
    Option Table :=
  if t.names.contains nm then none
  else some ⟨t.cols.take i ++ (nm, cells) :: t.cols.drop i⟩

/-- Embedding of handle_date_column (lines 203-247), ending with the
create_non_available_run_tag backfill. -/
def handle_date_column (t : Table) : Except String Table :=
  match t.getCol? "Date" with
  | none => Except.error "KeyError: Date"
  | some dateCol =>
    let cleaned := dateCol.map cleanedCell
    let t1 := t.setCol "cleaned" cleaned
    let runCells := (cleaned.map extractRun).map toInt64Cell
    match insertColAt t1 1 "Run" runCells with
    | none => Except.error "cannot insert Run, already exists"
    | some t2 =>
      match t2.getCol? "Donor" with
      | none => Except.error "KeyError: Donor"
      | some donorCol =>
        let t3 := t2.setCol "Donor"
          (List.zipWith combineFirstCell (cleaned.map extractDonor) donorCol)
        let t4 := t3.setCol "Date" (cleaned.map extractDatesCell)
        match dropCol t4 "cleaned" with
        | none => Except.error "KeyError: cleaned"
        | some t5 =>
          match create_non_available_run_tag
            (((t5.getCol? "Date").getD []).map cellToOptStr)
            (((t5.getCol? "Run").getD []).map cellToOptInt) with
          | Except.error e => Except.error e
          | Except.ok newRuns => Except.ok (t5.setCol "Run" (newRuns.map optIntToCell))

/-- Claim C9 counterexample: an input table that already has a column named
"cleaned" loses it — handle_date_column overwrites it with its temporary
working values and then drops it, so a column other than Date, Run and
Donor does not keep its name and values, even though the function returns
normally (the Date cell carries an extractable Run number and date, so the
backfill never enters the raising probe loop). -/
theorem claim9_handle_date_counterexample :
    (Table.mk [("Date", [Cell.str "RUN 2, 3-5 January 2024"]),
               ("Donor", [Cell.na]),
               ("cleaned", [Cell.str "keepme"])]).getCol? "cleaned" =
      some [Cell.str "keepme"] ∧
    handle_date_column
      ⟨[("Date", [Cell.str "RUN 2, 3-5 January 2024"]), ("Donor", [Cell.na]),
        ("cleaned", [Cell.str "keepme"])]⟩ =
      Except.ok ⟨[("Date", [Cell.str "2024-01-03 to 2024-01-05"]),
                  ("Run", [Cell.intv 2]), ("Donor", [Cell.na])]⟩ ∧
    (Table.mk [("Date", [Cell.str "2024-01-03 to 2024-01-05"]),
               ("Run", [Cell.intv 2]),
               ("Donor", [Cell.na])]).getCol? "cleaned" = none := by
  exact ⟨rfl, rfl, rfl⟩

/-! ### Lemmas for the frame property of handle_date_column -/

theorem names_setColList_of_not_mem (n : String) (cells : List Cell) :
    ∀ l : List (String × List Cell), n ∉ l.map Prod.fst →
    (setColList l n cells).map Prod.fst = l.map Prod.fst ++ [n] := by
  intro l
  induction l with
  | nil => intro _; rfl
  | cons c rest ih =>
    intro h
    simp only [List.map_cons, List.mem_cons] at h
    push_neg at h
    rw [show setColList (c :: rest) n cells =
      if c.1 == n then (n, cells) :: rest else c :: setColList rest n cells from rfl]
    rw [if_neg (by simpa using fun he => h.1 he.symm)]
    simp only [List.map_cons, List.cons_append]
    rw [ih h.2]

theorem names_setCol_of_not_mem (t : Table) (n : String) (cells : List Cell)
    (h : n ∉ t.names) : (t.setCol n cells).names = t.names ++ [n] :=
  names_setColList_of_not_mem n cells t.cols h

theorem mem_names_filter (t : Table) (nm n : String) (hne : n ≠ nm)
    (h : n ∈ t.names) :
    n ∈ (Table.mk (t.cols.filter (fun c => !(c.1 == nm)))).names := by
  rcases List.mem_map.mp h with ⟨c, hc, hfst⟩
  apply List.mem_map.mpr
  refine ⟨c, List.mem_filter.mpr ⟨hc, ?_⟩, hfst⟩
  simp [hfst, hne]

/-- All columns of a table have length nr. -/
def UniformN (t : Table) (nr : Nat) : Prop :=
  ∀ c ∈ t.cols, c.2.length = nr

theorem uniformN_setColList (n : String) (cells : List Cell) (nr : Nat)
    (hc : cells.length = nr) : ∀ l : List (String × List Cell),
    (∀ c ∈ l, c.2.length = nr) →
    ∀ c ∈ setColList l n cells, c.2.length = nr := by
  intro l
  induction l with
  | nil =>
    intro _ c hcmem
    simp only [setColList, List.mem_singleton] at hcmem
    rw [hcmem]
    exact hc
  | cons a rest ih =>
    intro h c hcmem
    rw [show setColList (a :: rest) n cells =
      if a.1 == n then (n, cells) :: rest else a :: setColList rest n cells from rfl]
      at hcmem
    by_cases ha : a.1 = n
    · rw [if_pos (by simpa using ha)] at hcmem
      rcases List.mem_cons.mp hcmem with rfl | hm
      · exact hc
      · exact h c (List.mem_cons_of_mem a hm)
    · rw [if_neg (by simpa using ha)] at hcmem
      rcases List.mem_cons.mp hcmem with hce | hm
      · rw [hce]
        exact h a (List.mem_cons_self a rest)
      · exact ih (fun x hx => h x (List.mem_cons_of_mem a hx)) c hm

theorem uniformN_setCol (t : Table) (n : String) (cells : List Cell) (nr : Nat)
    (h : UniformN t nr) (hc : cells.length = nr) :
    UniformN (t.setCol n cells) nr :=
  uniformN_setColList n cells nr hc t.cols h

theorem uniformN_insert (t : Table) (i : Nat) (nm : String) (cells : List Cell)
    (nr : Nat) (h : UniformN t nr) (hc : cells.length = nr) :
    UniformN (Table.mk (t.cols.take i ++ (nm, cells) :: t.cols.drop i)) nr := by
  intro c hcmem
  rcases List.mem_append.mp hcmem with hm | hm
  · exact h c (List.mem_of_mem_take hm)
  · rcases List.mem_cons.mp hm with rfl | hm'
    · exact hc
    · exact h c (List.mem_of_mem_drop hm')

theorem uniformN_filter (t : Table) (p : String × List Cell → Bool) (nr : Nat)
    (h : UniformN t nr) : UniformN (Table.mk (t.cols.filter p)) nr :=
  fun c hc => h c (List.mem_of_mem_filter hc)

theorem uniformN_getCol? (t : Table) (nr : Nat) (n : String) (c : List Cell)
    (h : UniformN t nr) (hg : t.getCol? n = some c) : c.length = nr := by
  unfold Table.getCol? at hg
  cases hf : t.cols.find? (fun x => x.1 == n) with
  | none => rw [hf] at hg; simp at hg
  | some p =>
    rw [hf] at hg
    have hp : p.2 = c := by simpa using hg
    rw [← hp]
    exact h p (List.mem_of_find?_eq_some hf)

/-- Claim C9 (amended): for an input table with no pre-existing "cleaned"
column, handle_date_column modifies only the Date, Run and Donor columns —
every other input column keeps its name and all its cell values — the
temporary working column is removed before return, and every output column
has the input's row count. -/
theorem claim9_handle_date_amended :
    ∀ (t t' : Table),
    t.Uniform →
    "cleaned" ∉ t.names →
    handle_date_column t = Except.ok t' →
    (∀ n col, t.getCol? n = some col →
      n ≠ "Date" → n ≠ "Run" → n ≠ "Donor" → n ≠ "cleaned" →
      t'.getCol? n = some col) ∧
    "cleaned" ∉ t'.names ∧
    (∀ c ∈ t'.cols, c.2.length = t.nrows) := by
  intro t t' hu hncl hok
  unfold handle_date_column at hok
  cases hdate : t.getCol? "Date" with
  | none => rw [hdate] at hok; exact absurd hok (by simp)
  | some dateCol =>
    rw [hdate] at hok
    dsimp only at hok
    set nr := t.nrows with hnr
    set cleaned := dateCol.map cleanedCell with hcleaned
    set t1 := t.setCol "cleaned" cleaned with ht1
    set runCells := (cleaned.map extractRun).map toInt64Cell with hrunCells
    have hNamesT1 : t1.names = t.names ++ ["cleaned"] := by
      rw [ht1]; exact names_setCol_of_not_mem t "cleaned" cleaned hncl
    by_cases hrun : "Run" ∈ t1.names
    · rw [show insertColAt t1 1 "Run" runCells = none from by
        unfold insertColAt
        rw [contains_true_of_mem _ _ hrun]
        rfl] at hok
      exact absurd hok (by simp)
    · rw [show insertColAt t1 1 "Run" runCells =
          some ⟨t1.cols.take 1 ++ ("Run", runCells) :: t1.cols.drop 1⟩ from by
        unfold insertColAt
        rw [contains_false_of_not_mem _ _ hrun]
        rfl] at hok
      set t2 : Table := ⟨t1.cols.take 1 ++ ("Run", runCells) :: t1.cols.drop 1⟩ with ht2
      dsimp only at hok
      cases hdonor : t2.getCol? "Donor" with
      | none => rw [hdonor] at hok; exact absurd hok (by simp)
      | some donorCol =>
        rw [hdonor] at hok
        dsimp only at hok
        set t3 := t2.setCol "Donor"
          (List.zipWith combineFirstCell (cleaned.map extractDonor) donorCol) with ht3
        set t4 := t3.setCol "Date" (cleaned.map extractDatesCell) with ht4
        -- membership bookkeeping
        have hDateMemT : "Date" ∈ t.names := mem_names_of_getCol? t _ _ hdate
        have hClMem1 : "cleaned" ∈ t1.names := by
          rw [hNamesT1]; exact List.mem_append_right _ (List.mem_cons_self _ _)
        have hClMem2 : "cleaned" ∈ t2.names := by
          rw [ht2]
          exact (insert_mem_names t1 1 "Run" runCells "cleaned").mpr (Or.inr hClMem1)
        have hDonorMem2 : "Donor" ∈ t2.names := mem_names_of_getCol? t2 _ _ hdonor
        have hNamesT3 : t3.names = t2.names := by
          rw [ht3]; exact names_setCol_of_mem t2 "Donor" _ hDonorMem2
        have hDateMem3 : "Date" ∈ t3.names := by
          rw [hNamesT3, ht2]
          apply (insert_mem_names t1 1 "Run" runCells "Date").mpr
          right
          rw [hNamesT1]
          exact List.mem_append_left _ hDateMemT
        have hNamesT4 : t4.names = t3.names := by
          rw [ht4]; exact names_setCol_of_mem t3 "Date" _ hDateMem3
        have hClMem4 : "cleaned" ∈ t4.names := by
          rw [hNamesT4, hNamesT3]; exact hClMem2
        rw [show dropCol t4 "cleaned" =
            some ⟨t4.cols.filter (fun c => !(c.1 == "cleaned"))⟩ from by
          unfold dropCol
          rw [contains_true_of_mem _ _ hClMem4]
          rfl] at hok
        dsimp only at hok
        set t5 : Table := ⟨t4.cols.filter (fun c => !(c.1 == "cleaned"))⟩ with ht5
        -- uniformity bookkeeping
        have hdl : dateCol.length = nr := uniformN_getCol? t nr "Date" dateCol hu hdate
        have hu1 : UniformN t1 nr := by
          rw [ht1]
          exact uniformN_setCol t "cleaned" cleaned nr hu (by simp [hcleaned, hdl])
        have hu2 : UniformN t2 nr := by
          rw [ht2]
          exact uniformN_insert t1 1 "Run" runCells nr hu1
            (by simp [hrunCells, hcleaned, hdl])
        have hdonl : donorCol.length = nr := uniformN_getCol? t2 nr "Donor" donorCol hu2 hdonor
        have hu3 : UniformN t3 nr := by
          rw [ht3]
          exact uniformN_setCol t2 "Donor" _ nr hu2
            (by simp [hcleaned, hdl, hdonl])
        have hu4 : UniformN t4 nr := by
          rw [ht4]
          exact uniformN_setCol t3 "Date" _ nr hu3 (by simp [hcleaned, hdl])
        have hu5 : UniformN t5 nr := by
          rw [ht5]
          exact uniformN_filter t4 _ nr hu4
        -- the Date and Run columns of t5
        have hDateMem5 : "Date" ∈ t5.names := by
          rw [ht5]
          exact mem_names_filter t4 "cleaned" "Date" (by decide)
            (by rw [hNamesT4]; exact hDateMem3)
        have hRunMem2 : "Run" ∈ t2.names := by
          rw [ht2]
          exact (insert_mem_names t1 1 "Run" runCells "Run").mpr (Or.inl rfl)
        have hRunMem5 : "Run" ∈ t5.names := by
          rw [ht5]
          exact mem_names_filter t4 "cleaned" "Run" (by decide)
            (by rw [hNamesT4, hNamesT3]; exact hRunMem2)
        rcases getCol?_of_mem_names t5 "Date" hDateMem5 with ⟨dX, hdX⟩
        rcases getCol?_of_mem_names t5 "Run" hRunMem5 with ⟨rX, hrX⟩
        rw [hdX, hrX] at hok
        dsimp only [Option.getD_some] at hok
        have hdXl : dX.length = nr := uniformN_getCol? t5 nr "Date" dX hu5 hdX
        have hrXl : rX.length = nr := uniformN_getCol? t5 nr "Run" rX hu5 hrX
        cases hbf : create_non_available_run_tag (dX.map cellToOptStr)
            (rX.map cellToOptInt) with
        | error e =>
          rw [hbf] at hok
          exact absurd hok (by simp)
        | ok newRuns =>
          rw [hbf] at hok
          dsimp only at hok
          have ht' : t' = t5.setCol "Run" (newRuns.map optIntToCell) :=
            (Except.ok.inj hok).symm
          subst ht'
          have hnewEq : newRuns = rX.map cellToOptInt :=
            create_run_tag_ok_eq (dX.map cellToOptStr) (rX.map cellToOptInt)
              (by simp [hdXl, hrXl]) newRuns hbf
          refine ⟨?_, ?_, ?_⟩
          · intro n col hcol hnD hnR hnDon hnCl
            rw [getCol?_setCol_other t5 "Run" _ n hnR, ht5,
              dropCol_getCol?_other t4 "cleaned" n hnCl, ht4,
              getCol?_setCol_other t3 "Date" _ n hnD, ht3,
              getCol?_setCol_other t2 "Donor" _ n hnDon, ht2,
              insert_getCol?_other t1 1 "Run" runCells n hnR, ht1,
              getCol?_setCol_other t "cleaned" cleaned n hnCl]
            exact hcol
          · have hNames' : (t5.setCol "Run"
                (newRuns.map optIntToCell)).names = t5.names :=
              names_setCol_of_mem t5 "Run" _ hRunMem5
            rw [hNames', ht5]
            exact dropCol_not_mem_names t4 "cleaned"
          · have hlenNew : (newRuns.map optIntToCell).length = nr := by
              rw [hnewEq]
              simp [hrXl]
            exact uniformN_setCol t5 "Run" _ nr hu5 (by simp [hlenNew])

/-- Claim C9 witness: the amended frame theorem applied to a concrete
one-row table whose Date text carries run, donor and date-range
information; the unrelated Notes column survives untouched and the
temporary column is absent. -/
theorem claim9_handle_date_amended_witness :
    (Table.mk [("Date", [Cell.str "2024-01-03 to 2024-01-05"]),
               ("Run", [Cell.intv 4]), ("Donor", [Cell.str "7"]),
               ("Notes", [Cell.str "keep"])]).getCol? "Notes" =
      some [Cell.str "keep"] ∧
    "cleaned" ∉ (Table.mk [("Date", [Cell.str "2024-01-03 to 2024-01-05"]),
               ("Run", [Cell.intv 4]), ("Donor", [Cell.str "7"]),
               ("Notes", [Cell.str "keep"])]).names := by
  have h := claim9_handle_date_amended
    ⟨[("Date", [Cell.str "<b>RUN 4</b> Donor 7, 3-5 January 2024"]),
      ("Donor", [Cell.na]), ("Notes", [Cell.str "keep"])]⟩
    ⟨[("Date", [Cell.str "2024-01-03 to 2024-01-05"]),
      ("Run", [Cell.intv 4]), ("Donor", [Cell.str "7"]),
      ("Notes", [Cell.str "keep"])]⟩
    (by intro c hc; simp only [List.mem_cons, List.not_mem_nil, or_false] at hc
        rcases hc with hc | hc | hc <;> rw [hc] <;> rfl)
    (by decide)
    (by rfl)
  exact ⟨h.1 "Notes" [Cell.str "keep"] (by rfl)
    (by decide) (by decide) (by decide) (by decide), h.2.1⟩

end Cartool
